import Mathlib

/-!
Verification development for the bpm-sniffer repository.

The repository's core is a tempo (BPM) estimation pipeline written in Rust:
`src-tauri/src/bpm.rs` holds the autocorrelation estimator
(`BpmEstimator::push_frames`), and `src-tauri/src/main.rs` holds the
stabilizer / display controller (`run_capture`, `reset_backend`,
`get_current_bpm`, `level_from_frames`).

This file gives a shallow embedding of that code:

* `f32` values are modelled as rationals (`ℚ`); decimal literals are read
  exactly, and `+ - * / min max clamp abs` are the corresponding exact
  rational operations.  This ignores `f32` rounding, which none of the
  verified claims depend on (they are about clamps, thresholds and control
  flow).
* The transcendental `f32` functions (`sqrt`, `log10`, `powf`, `exp`,
  `cos`, `tanh`) have no exact rational counterpart.  They are abstracted
  as a record of opaque-to-the-theorems functions `FloatOps`; theorems
  quantify over the record, so they hold for every implementation of the
  transcendentals, and concrete evaluations use an explicit `dummyOps`.
* Machine integers (`usize`, `u8`, `u64` timestamps) are `ℕ`;
  `saturating_sub` on unsigned integers is truncated subtraction on `ℕ`,
  `u8::saturating_add` saturates at 255, `f32::round` rounds half away
  from zero, and `as usize` truncates toward zero (clamping negatives
  to 0).
* Stateful Rust code becomes explicit state passing on `EstState`
  (the estimator) and `DispState` (the stabilizer loop's local mutable
  variables, including the function-static integer-lock variables).
* The tempo backend is behind the `TempoBackend` trait in the source; the
  stabilizer model takes the backend's per-hop output (`Option BpmEstimate`)
  as an input of the hop event.
-/

namespace BpmSniffer

/-- `f32::clamp(lo, hi)`: `min (max x lo) hi`. -/
def clampQ (x lo hi : ℚ) : ℚ := min (max x lo) hi

/-- `f32::round`: round half away from zero. -/
def roundRust (q : ℚ) : ℤ := if 0 ≤ q then ⌊q + 1/2⌋ else ⌈q - 1/2⌉

/-- `as usize` on a nonnegative `f32`: truncate toward zero (negative values
clamp to 0, as in Rust float-to-unsigned casts). -/
def toUsize (q : ℚ) : ℕ := ⌊q⌋.toNat

/-- `u8::saturating_add(1)`. -/
def sadd8 (n : ℕ) : ℕ := min (n + 1) 255

/-- Sum of squares of a sample buffer (`Σ s*s`). -/
def sumsq (l : List ℚ) : ℚ := l.foldl (fun a v => a + v * v) 0

/-- Sum of a buffer. -/
def sumQ (l : List ℚ) : ℚ := l.foldl (· + ·) 0

/-- The `f32` constant `f32::MIN` (exact value of the most negative finite
`f32`), used by the source to initialise the best/second autocorrelation
scores. -/
def f32Min : ℚ := -(2 ^ 128 - 2 ^ 104)

/-- Rational stand-in for the `f32` constant `std::f32::consts::PI`.  It is
only ever fed to the abstract transcendentals, so its exact value is
irrelevant to every theorem below. -/
def piQ : ℚ := 3.1415927

/-- The transcendental `f32` functions used by the source, abstracted.
Theorems quantify over this record. -/
structure FloatOps where
  sqrt : ℚ → ℚ
  log10 : ℚ → ℚ
  powf : ℚ → ℚ → ℚ
  exp : ℚ → ℚ
  cos : ℚ → ℚ
  tanh : ℚ → ℚ

/-- A concrete `FloatOps` used for evaluating the model on explicit inputs
(witnesses and counterexamples).  `sqrt x = x/2` agrees with the real square
root at `4`, `powf x e = max x 0` is monotone and fixes `[0, 1]`, matching
the properties of the real functions that the counterexamples rely on. -/
def dummyOps : FloatOps :=
  { sqrt := fun x => x / 2
    log10 := fun _ => 0
    powf := fun x _ => max x 0
    exp := fun _ => 1
    cos := fun _ => -1
    tanh := fun x => x }

/-- Property of `FloatOps.powf` at exponent 0.85 that is true of the real
`powf`: it maps `[0, 1]` into `[0, 1]`. -/
def PowfBounded (powf : ℚ → ℚ → ℚ) : Prop :=
  ∀ x : ℚ, 0 ≤ x → x ≤ 1 → 0 ≤ powf x (17/20) ∧ powf x (17/20) ≤ 1

theorem dummyOps_powfBounded : PowfBounded dummyOps.powf := by
  intro x hx hx1
  simp only [dummyOps]
  constructor
  · exact le_max_right _ _
  · exact max_le hx1 (by norm_num)

theorem clampQ_mem {lo hi : ℚ} (x : ℚ) (h : lo ≤ hi) :
    lo ≤ clampQ x lo hi ∧ clampQ x lo hi ≤ hi := by
  unfold clampQ
  constructor
  · exact le_min (le_max_right x lo) h
  · exact min_le_right _ _

theorem clampQ_le_right {lo hi : ℚ} (x : ℚ) : clampQ x lo hi ≤ hi :=
  min_le_right _ _

theorem clampQ_ge_left {lo hi : ℚ} (x : ℚ) (h : lo ≤ hi) : lo ≤ clampQ x lo hi :=
  (clampQ_mem x h).1

/-! ## Tempo estimator (`src-tauri/src/bpm.rs`) -/

/-- `BpmEstimate` (bpm.rs line 8): the raw per-hop tempo estimate. -/
structure BpmEstimate where
  bpm : ℚ
  confidence : ℚ
  rms : ℚ
  from_short : Bool
  win_sec : ℚ
deriving DecidableEq

/-- `BpmEstimator` (bpm.rs lines 10–32): the estimator's mutable state. -/
structure EstState where
  sample_rate : ℚ
  ds_rate : ℚ
  buf : List ℚ
  min_bpm : ℚ
  max_bpm : ℚ
  hp_alpha : ℚ
  lp_alpha : ℚ
  hp_lp_prev : ℚ
  lp_prev : ℚ
  prev_bp : ℚ
  last_input_rms_db : ℚ
  last_short_bpm : Option ℚ
  short_consistency : ℕ
  last_bpm : Option ℚ

/-- `BpmEstimator::new` (bpm.rs lines 35–60).  The IIR coefficients are
`exp(-2π·fc/fs)`, built from the abstract exponential. -/
def EstState.new (ops : FloatOps) (sampleRate : ℚ) : EstState :=
  { sample_rate := sampleRate
    ds_rate := 200
    buf := []
    min_bpm := 91
    max_bpm := 180
    hp_alpha := ops.exp (-(2 * piQ * 40) / sampleRate)
    lp_alpha := ops.exp (-(2 * piQ * 180) / sampleRate)
    hp_lp_prev := 0
    lp_prev := 0
    prev_bp := 0
    last_input_rms_db := -120
    last_short_bpm := none
    short_consistency := 0
    last_bpm := none }

/-- `while buf.len() > keep { buf.pop_front() }`. -/
def keepLast (l : List ℚ) (keep : ℕ) : List ℚ := l.drop (l.length - keep)

/-- Input-RMS jump detection and filter reset (bpm.rs lines 63–76). -/
def inputJumpReset (ops : FloatOps) (s : EstState) (frames : List ℚ) : EstState :=
  if frames.isEmpty then s
  else
    let rms := ops.sqrt (sumsq frames / (frames.length : ℚ))
    let db := 20 * ops.log10 (max rms (1/10^9))
    let s :=
      if db - s.last_input_rms_db > 6 then
        { s with hp_lp_prev := 0, lp_prev := 0, prev_bp := 0,
                 buf := keepLast s.buf (toUsize s.ds_rate * 1) }
      else s
    { s with last_input_rms_db := db }

/-- Accumulator for the rectification / decimation loop (bpm.rs lines 81–105). -/
structure EnvSt where
  acc : ℚ
  cnt : ℕ
  hpP : ℚ
  lpP : ℚ
  prevBp : ℚ
  buf : List ℚ

/-- One sample of the onset-enhancing filter chain plus block decimation
(bpm.rs lines 83–105): one-pole high-pass at 40 Hz, one-pole low-pass at
180 Hz, half-wave rectified forward difference, block average every `decim`
samples, then a `0.8·prev + 0.2·new` IIR into the envelope FIFO. -/
def envStep (hpA lpA : ℚ) (decim : ℕ) (i : ℕ) (e : EnvSt) (v : ℚ) : EnvSt :=
  let hp_lp := hpA * e.hpP + (1 - hpA) * v
  let hp := v - hp_lp
  let lp := lpA * e.lpP + (1 - lpA) * hp
  let pd := max (lp - e.prevBp) 0
  let acc := e.acc + pd
  let cnt := e.cnt + 1
  if (i + 1) % decim = 0 then
    let m := acc / (cnt : ℚ)
    let prev := e.buf.getLastD m
    { acc := 0, cnt := 0, hpP := hp_lp, lpP := lp, prevBp := lp,
      buf := e.buf ++ [prev * (4/5) + m * (1/5)] }
  else
    { acc := acc, cnt := cnt, hpP := hp_lp, lpP := lp, prevBp := lp, buf := e.buf }

/-- The rectification loop over all incoming frames. -/
def envLoop (hpA lpA : ℚ) (decim : ℕ) (frames : List ℚ) (e : EnvSt) : EnvSt :=
  frames.enum.foldl (fun a p => envStep hpA lpA decim p.1 a p.2) e

/-- Envelope preprocessing: run the rectification loop from the estimator's
filter state and cap the envelope FIFO at 4 s (bpm.rs lines 81–109). -/
def preprocessEnv (s : EstState) (decim : ℕ) (frames : List ℚ) : EstState :=
  let e := envLoop s.hp_alpha s.lp_alpha decim frames
    { acc := 0, cnt := 0, hpP := s.hp_lp_prev, lpP := s.lp_prev,
      prevBp := s.prev_bp, buf := s.buf }
  { s with hp_lp_prev := e.hpP, lp_prev := e.lpP, prev_bp := e.prevBp,
           buf := keepLast e.buf (toUsize s.ds_rate * 4) }

/-- RMS of the down-sampled envelope buffer (bpm.rs line 113). -/
def bufRms (ops : FloatOps) (buf : List ℚ) : ℚ :=
  ops.sqrt (sumsq buf / (buf.length : ℚ))

/-- Number of leading samples below the trim threshold (bpm.rs line 131). -/
def trimFrontLen (xs : List ℚ) (thr : ℚ) : ℕ :=
  (xs.takeWhile (fun v => |v| < thr)).length

/-- Index of the trailing trim position (bpm.rs line 132):
`i1 = len-1; while i1 > i0 && |x[i1]| < thr { i1 -= 1 }`. -/
def trimBack (xs : List ℚ) (thr : ℚ) (i0 : ℕ) : ℕ → ℕ
  | 0 => 0
  | i + 1 => if i + 1 > i0 ∧ |xs.getD (i + 1) 0| < thr then trimBack xs thr i0 i else i + 1

/-- Hann window applied to the mean-centred slice (bpm.rs lines 141–146). -/
def hannApply (ops : FloatOps) (x : List ℚ) : List ℚ :=
  let n := x.length
  x.enum.map (fun p => p.2 * ((1/2) * (1 - ops.cos (2 * piQ * (p.1 : ℚ) / ((n : ℚ) - 1)))))

/-- Ascending sort by `partial_cmp` (rational values). -/
def sortQ (l : List ℚ) : List ℚ := l.insertionSort (· ≤ ·)

/-- Ascending sort of sample indices. -/
def sortNat (l : List ℕ) : List ℕ := l.insertionSort (· ≤ ·)

/-- Consecutive differences of an ascending index list
(`peaks.windows(2).map(|w| w[1]-w[0])`). -/
def diffsNat : List ℕ → List ℕ
  | a :: b :: rest => (b - a) :: diffsNat (b :: rest)
  | _ => []

/-- Peak prominence test (bpm.rs lines 160–167): the candidate must rise at
least `promThr` above the larger of the minima over `w` samples to each
side. -/
def promOk (x : List ℚ) (i w : ℕ) (promThr : ℚ) : Bool :=
  let l0 := i - w
  let r0 := min (i + w) (x.length - 1)
  let xi := x.getD i 0
  let left_min := (List.range' l0 (i - l0)).foldl (fun m j => min m (x.getD j 0)) xi
  let right_min := (List.range' (i + 1) (r0 - i)).foldl (fun m j => min m (x.getD j 0)) xi
  decide (xi - max left_min right_min ≥ promThr)

/-- Drum-onset peak extraction (bpm.rs lines 148–169): local maxima above the
dynamic threshold, separated by at least `minSep`, passing the prominence
test. -/
def findPeaks (x : List ℚ) (dynThr promThr : ℚ) (minSep : ℕ) : List ℕ :=
  (List.range' 1 (x.length - 2)).foldl
    (fun peaks i =>
      if x.getD i 0 > dynThr ∧ x.getD i 0 ≥ x.getD (i - 1) 0 ∧ x.getD i 0 > x.getD (i + 1) 0 then
        let keep :=
          match peaks.getLast? with
          | some last => decide (i - last ≥ minSep)
          | none => true
        if keep then
          if promOk x i (max minSep 4) promThr then peaks ++ [i] else peaks
        else peaks
      else peaks)
    []

/-- The three correlation sums `(num, e1, e2)` at a lag (bpm.rs lines 232–242). -/
def corrTriple (xw : List ℚ) (lag : ℕ) : ℚ × ℚ × ℚ :=
  (List.range (xw.length - lag)).foldl
    (fun (a : ℚ × ℚ × ℚ) i =>
      let v := xw.getD i 0
      let w := xw.getD (i + lag) 0
      (a.1 + v * w, a.2.1 + v * v, a.2.2 + w * w))
    (0, 0, 0)

/-- Normalised autocorrelation `r(lag)`, clamped to `[0, 1]`
(bpm.rs lines 243–244). -/
def rAt (ops : FloatOps) (xw : List ℚ) (lag : ℕ) : ℚ :=
  let t := corrTriple xw lag
  clampQ (t.1 / max (ops.sqrt (t.2.1 * t.2.2)) (1/10^9)) 0 1

/-- The parabolic-refinement correlation closure `corr_at`
(bpm.rs lines 301–306): 0 when the window is shorter than the lag. -/
def corrAt (ops : FloatOps) (xw : List ℚ) (lag : ℕ) : ℚ :=
  if xw.length ≤ lag then 0 else rAt ops xw lag

/-- The `eval_r_at` closure (bpm.rs lines 266–271): additionally 0 outside
the open lag range. -/
def evalRAtG (ops : FloatOps) (xw : List ℚ) (minLag maxLag lag : ℕ) : ℚ :=
  if lag ≤ minLag ∨ lag ≥ maxLag ∨ xw.length ≤ lag then 0 else rAt ops xw lag

/-- Running state of the autocorrelation scan (bpm.rs lines 221–227). -/
structure ScanSt where
  best : ℚ
  second : ℚ
  bestLag : ℕ
  sum : ℚ
  cnt : ℕ

/-- One lag of the weighted autocorrelation scan (bpm.rs lines 231–259):
normalised correlation times the global 120-BPM prior times the
integer-grid prior. -/
def scanUpdate (ops : FloatOps) (ds : ℚ) (xw : List ℚ) (lag : ℕ) (st : ScanSt) : ScanSt :=
  let r := rAt ops xw lag
  let bpm_here := 60 * ds / (lag : ℚ)
  let prior := ops.exp (-((bpm_here - 120) ^ 2) / (2 * (50 : ℚ) ^ 2))
  let nearest : ℚ := (roundRust bpm_here : ℚ)
  let delta := |bpm_here - nearest|
  let grid_w := ops.exp (-(delta * delta) / (2 * (8/25) * (8/25)))
  let grid_mix := (1 - 3/10) + (3/10) * grid_w
  let score := r * ((3/5) + (2/5) * prior) * grid_mix
  let st' := { st with sum := st.sum + score, cnt := st.cnt + 1 }
  if score > st'.best then
    { st' with second := st'.best, best := score, bestLag := lag }
  else if score > st'.second then { st' with second := score }
  else st'

/-- The lag scan `for lag in min_lag..=max_lag` with the early `break` when
the window is shorter than the lag (bpm.rs lines 231–259). -/
def scanLags (ops : FloatOps) (ds : ℚ) (xw : List ℚ) (maxLag : ℕ) (lag : ℕ) (st : ScanSt) :
    ScanSt :=
  if h : maxLag < lag then st
  else if xw.length ≤ lag then st
  else scanLags ops ds xw maxLag (lag + 1) (scanUpdate ops ds xw lag st)
termination_by maxLag + 1 - lag
decreasing_by omega

/-- Score-to-confidence tail of `eval_slice` (bpm.rs lines 283–296): the
edge-lag guard, the `best_score` floor, `ratio`, the `margin` floor, the
confidence formula and its modulation, and the final confidence floor.
Returns `(confidence, avg_score)`. -/
def scoreTail (ops : FloatOps) (minLag bestLag : ℕ) (best second sum : ℚ) (cnt : ℕ)
    (harm : ℚ) (pc : ℕ) (cv : ℚ) : Option (ℚ × ℚ) :=
  if bestLag ≤ minLag + 1 ∧ best < 0.20 then none
  else if best < 0.08 then none
  else
    let avg := max (sum / (cnt : ℚ)) (1/10^9)
    let ratio := max (best / avg) 1
    let margin := max (best - second) 0
    if margin < 0.010 then none
    else
      let conf0 := ops.powf (clampQ (best * ops.sqrt ratio) 0 0.95) (17/20) * harm
      let cnt_factor := clampQ ((pc : ℚ) / 8) 0.3 1
      let stab_factor := clampQ (1 - cv) 0.4 1
      let conf := conf0 * (0.5 + 0.5 * cnt_factor * stab_factor)
      if conf < 0.05 then none else some (conf, avg)

/-- Output of `eval_slice`: `(bpm, confidence, best_score, avg_score, win_sec)`
(bpm.rs line 336). -/
structure SliceOut where
  bpm : ℚ
  conf : ℚ
  best : ℚ
  avg : ℚ
  win : ℚ
deriving DecidableEq

/-- First stage of `eval_slice` (bpm.rs lines 123–136): the window-length
requirement, the 3 %-of-peak silence trim, and the 1.6 s minimum; yields the
trimmed slice. -/
def trimStage (ds : ℚ) (maxLag : ℕ) (xs : List ℚ) : Option (List ℚ) :=
  if xs.length ≤ maxLag + 1 then none
  else
    let max_v := xs.foldl (fun m v => if |v| > m then |v| else m) 0
    if max_v ≤ 1/10^7 then none
    else
      let thr := max ((3/100) * max_v) (1/10^7)
      let i0 := trimFrontLen xs thr
      let i1 := trimBack xs thr i0 (xs.length - 1)
      if i1 ≤ i0 then none
      else
        let slice := (xs.take (i1 + 1)).drop i0
        if slice.length < toUsize ds * 16 / 10 then none else some slice

/-- Mean-centring and Hann windowing of the trimmed slice
(bpm.rs lines 138–146). -/
def windowStage (ops : FloatOps) (slice : List ℚ) : List ℚ :=
  let mean := sumQ slice / (slice.length : ℚ)
  let x0 := slice.map (fun v => v - mean)
  if x0.length ≥ 3 then hannApply ops x0 else x0

/-- Peak extraction and its gates (bpm.rs lines 148–199): dynamic threshold,
minimum separation and prominence; at least 2 peaks; IOI coefficient of
variation at most 0.65; peakiness at least 1.25; peak density in
`[0.20, 14]`; the window-length-dependent minimum peak count.  Yields the
peak list with the IOI coefficient of variation. -/
def peaksStage (ops : FloatOps) (ds maxBpm : ℚ) (x : List ℚ) (sliceLen : ℕ) :
    Option (List ℕ × ℚ) :=
  let max_x := x.foldl (fun m v => max m |v|) 0
  let peak_thr := max ((14/100) * max_x) (1/10^7)
  let abs_sorted := sortQ (x.map (fun v => |v|))
  let p35 := max (abs_sorted.getD (abs_sorted.length * 35 / 100) 0) (1/10^7)
  let dyn_thr := max peak_thr p35
  let min_sep := max (roundRust (ds * 60 / maxBpm)).toNat 2
  let prom_thr := max ((4/100) * max_x) (dyn_thr * (15/100))
  let peaks := findPeaks x dyn_thr prom_thr min_sep
  if peaks.length < 2 then none
  else
    let cv : ℚ :=
      if peaks.length ≥ 4 then
        let iois : List ℚ := (diffsNat peaks).map (fun d => (d : ℚ))
        let m := sumQ iois / (iois.length : ℚ)
        if m > 1/1000 then
          let var := (iois.foldl (fun a v => a + (v - m) * (v - m)) 0) / (iois.length : ℚ)
          min (ops.sqrt var / m) 2
        else 0
      else 0
    if peaks.length ≥ 4 ∧ cv > 0.65 then none
    else
      let win_sec_here := (sliceLen : ℚ) / ds
      let abs_sorted_all := sortQ (x.map (fun v => |v|))
      let p50_all := max (abs_sorted_all.getD (abs_sorted_all.length / 2) 0) (1/10^7)
      let p95_all := max (abs_sorted_all.getD (abs_sorted_all.length * 95 / 100) 0) (1/10^7)
      let peakiness := max (p95_all / p50_all) 0
      if peakiness < 1.25 then none
      else
        let peaks_per_sec := (peaks.length : ℚ) / max win_sec_here (1/1000)
        if peaks_per_sec < 0.20 ∨ peaks_per_sec > 14 then none
        else
          let min_peaks : ℕ := if win_sec_here ≥ 3.5 then 4 else if win_sec_here ≥ 2 then 2 else 2
          if peaks.length < min_peaks then none else some (peaks, cv)

/-- Peak-aligned cropping with the fall-back to the un-windowed slice
(bpm.rs lines 201–219). -/
def cropStage (ds maxBpm : ℚ) (x slice : List ℚ) (peaks : List ℕ) : Option (List ℚ) :=
  let min_keep := toUsize ds * 16 / 10
  let iois_for_pad := diffsNat peaks
  let pad0 : ℕ :=
    if iois_for_pad.isEmpty then (roundRust (ds * 60 / maxBpm)).toNat / 2
    else toUsize (((sortNat iois_for_pad).getD (iois_for_pad.length / 2) 0 : ℚ) * (3/4))
  let pad := max pad0 2
  let pfirst := peaks.headD 0
  let plast := peaks.getLastD (x.length - 1)
  let start_i := pfirst - pad
  let end_i := min (plast + pad) (x.length - 1)
  let xw_crop := (x.take (end_i + 1)).drop start_i
  if xw_crop.length < min_keep ∧ slice.length < min_keep then none
  else some (if xw_crop.length < min_keep then slice else xw_crop)

/-- Final stage of `eval_slice` (bpm.rs lines 221–336): the weighted
autocorrelation scan, the harmonic-family penalty, the score-to-confidence
tail, the parabolic sub-sample refinement, and the IOI-median fusion. -/
def sliceFinish (ops : FloatOps) (ds : ℚ) (minLag maxLag : ℕ) (xw : List ℚ)
    (peaks : List ℕ) (cv : ℚ) : Option SliceOut :=
  let sst := scanLags ops ds xw maxLag minLag
    { best := f32Min, second := f32Min, bestLag := 0, sum := 0, cnt := 0 }
  if sst.bestLag = 0 then none
  else
    let lag_half := (roundRust ((sst.bestLag : ℚ) * 2)).toNat
    let lag_dbl := (roundRust ((sst.bestLag : ℚ) * (1/2))).toNat
    let r_primary := evalRAtG ops xw minLag maxLag sst.bestLag
    let r_half := evalRAtG ops xw minLag maxLag lag_half
    let r_dbl := evalRAtG ops xw minLag maxLag lag_dbl
    let family_min := min r_half r_dbl
    let harm : ℚ := if family_min < r_primary * (35/100) then 0.90 else 1
    match scoreTail ops minLag sst.bestLag sst.best sst.second sst.sum sst.cnt
      harm peaks.length cv with
    | none => none
    | some ca =>
      let bpm0 := 60 * ds / (sst.bestLag : ℚ)
      let bpm1 :=
        if minLag < sst.bestLag ∧ sst.bestLag < maxLag then
          let r_m1 := corrAt ops xw (sst.bestLag - 1)
          let r_0 := corrAt ops xw sst.bestLag
          let r_p1 := corrAt ops xw (sst.bestLag + 1)
          let denom := r_m1 - 2 * r_0 + r_p1
          if |denom| > 1/10^6 then
            let d := clampQ ((1/2) * (r_m1 - r_p1) / denom) (-(1/2)) (1/2)
            60 * ds / ((sst.bestLag : ℚ) + d)
          else bpm0
        else bpm0
      let bpm2 :=
        if peaks.length ≥ 3 then
          let iois_samp := sortNat (diffsNat peaks)
          let med_ioi := max (iois_samp.getD (iois_samp.length / 2) 0) 1
          let ioi_bpm := 60 * ds / (med_ioi : ℚ)
          let rel := |ioi_bpm - bpm1| / max bpm1 (1/10^6)
          if rel ≤ 0.008 then (bpm1 * 2 + ioi_bpm) / 3 else bpm1
        else bpm1
      some { bpm := bpm2, conf := ca.1, best := sst.best, avg := ca.2,
             win := (xw.length : ℚ) / ds }

/-- `eval_slice` (bpm.rs lines 122–337): the composition of the trim,
windowing, peak, crop and autocorrelation stages, with each rejection
returning none. -/
def evalSlice (ops : FloatOps) (ds maxBpm : ℚ) (minLag maxLag : ℕ) (xs : List ℚ) :
    Option SliceOut :=
  (trimStage ds maxLag xs).bind fun slice =>
    let x := windowStage ops slice
    (peaksStage ops ds maxBpm x slice.length).bind fun pc =>
      (cropStage ds maxBpm x slice pc.1).bind fun xw =>
        sliceFinish ops ds minLag maxLag xw pc.1 pc.2

/-- The dual-window arbitration and return of `push_frames`
(bpm.rs lines 339–379), given the post-gate state and envelope RMS. -/
def estimateFrom (ops : FloatOps) (s : EstState) (rms : ℚ) : EstState × Option BpmEstimate :=
  let min_lag := (roundRust (s.ds_rate * 60 / s.max_bpm)).toNat
  let max_lag := (roundRust (s.ds_rate * 60 / s.min_bpm)).toNat
  let long_est := evalSlice ops s.ds_rate s.max_bpm min_lag max_lag s.buf
  let base_bpm := clampQ (s.last_bpm.getD 140) s.min_bpm s.max_bpm
  let short_sec := clampQ ((5/2) * (60 / base_bpm)) 2 4
  let short_len := (roundRust (s.ds_rate * short_sec)).toNat
  let short_est :=
    if s.buf.length > short_len then
      evalSlice ops s.ds_rate s.max_bpm min_lag max_lag (s.buf.drop (s.buf.length - short_len))
    else none
  match long_est, short_est with
  | some l, some sh =>
    let diverge := |sh.bpm - l.bpm| / max l.bpm (1/10^6) > 0.06
    let s :=
      match s.last_short_bpm with
      | some prev =>
        if |sh.bpm - prev| / max sh.bpm (1/10^6) ≤ 0.03 then
          { s with short_consistency := sadd8 s.short_consistency }
        else { s with short_consistency := 1 }
      | none => { s with short_consistency := 1 }
    let s := { s with last_short_bpm := some sh.bpm }
    let prefer_short := diverge ∧ sh.conf ≥ l.conf * 0.75 ∧ s.short_consistency ≥ 2
    if prefer_short then
      ({ s with last_bpm := some sh.bpm },
       some { bpm := sh.bpm, confidence := sh.conf, rms := rms, from_short := true, win_sec := sh.win })
    else
      ({ s with last_bpm := some l.bpm },
       some { bpm := l.bpm, confidence := l.conf, rms := rms, from_short := false, win_sec := l.win })
  | some l, none =>
    ({ s with last_bpm := some l.bpm },
     some { bpm := l.bpm, confidence := l.conf, rms := rms, from_short := false, win_sec := l.win })
  | none, some sh =>
    ({ s with last_bpm := some sh.bpm },
     some { bpm := sh.bpm, confidence := sh.conf, rms := rms, from_short := true, win_sec := sh.win })
  | none, none => (s, none)

/-- `BpmEstimator::push_frames` (bpm.rs lines 62–380): input-jump reset,
envelope preprocessing, the length and RMS gates, and the dual-window
estimate. -/
def push_frames (ops : FloatOps) (s : EstState) (frames : List ℚ) :
    EstState × Option BpmEstimate :=
  let s1 := inputJumpReset ops s frames
  let decim := (max (roundRust (s1.sample_rate / s1.ds_rate)) 1).toNat
  if decim = 0 then (s1, none)
  else
    let s2 := preprocessEnv s1 decim frames
    if s2.buf.length < toUsize s2.ds_rate * 1 then (s2, none)
    else
      let rms := bufRms ops s2.buf
      if rms < 4/10^4 then (s2, none)
      else estimateFrom ops s2 rms

/-! ## Stabilizer / display controller (`src-tauri/src/main.rs`, `run_capture`) -/

/-- The three display states (`&'static str` values in the source). -/
inductive BpState
  | analyzing
  | tracking
  | uncertain
deriving DecidableEq

/-- `DisplayBpm` (main.rs line 33): the published display value. -/
structure DisplayBpm where
  bpm : ℚ
  confidence : ℚ
  state : BpState
  level : ℚ
deriving DecidableEq

/-- All mutable local state of the `run_capture` loop (main.rs lines 262–317),
including the function-static integer-lock variables (main.rs lines 617–623).
The analysis window FIFO itself is not modelled; a hop's 2-second frame
window is an input of the hop event. -/
structure DispState where
  sr : ℚ
  hi_cnt : ℕ
  lo_cnt : ℕ
  tracking : Bool
  ever_locked : Bool
  none_cnt : ℕ
  silent_win_cnt : ℕ
  anchor_bpm : Option ℚ
  ema_disp : Option ℚ
  stable_vals : List (ℚ × ℕ)
  fast_relock_deadline : Option ℕ
  prev_rms_db : Option ℚ
  recent_none_flag : Bool
  dev_from_lock_cnt : ℕ
  was_silent_flag : Bool
  last_from_short : Option Bool
  last_hard_int : Option ℤ
  last_hard_state : Option BpState
  noise_floor_rms : ℚ
  trk_x : Option ℚ
  trk_v : ℚ
  recent_ints : List (ℤ × ℕ)
  recent_ints_cand : List (ℤ × ℕ)
  force_clear_lock : Bool
  norm_gain_db_smooth : ℚ
  sc_hp_alpha : ℚ
  sc_lp_alpha : ℚ
  sc_hp_lp_prev : ℚ
  sc_lp_prev : ℚ
  lock_int : Option ℤ
  lock_cnt : ℕ
  unlock_cnt : ℕ
  last_show_ms : Option ℕ
  alt_int : Option ℤ
  alt_cnt : ℕ

/-- `level_from_frames` (main.rs lines 239–246). -/
def level_from_frames (ops : FloatOps) (frames : List ℚ) : ℚ :=
  if frames.isEmpty then 0
  else
    let rms := ops.sqrt (sumsq frames / (frames.length : ℚ))
    let db := 20 * ops.log10 (max rms (1/10^9))
    clampQ ((db + 60) / 60) 0 1

/-- `while front too old { pop_front }` pruning of a time-stamped ring
(e.g. main.rs line 705). -/
def pruneFront {α : Type} (winMs now : ℕ) (l : List (α × ℕ)) : List (α × ℕ) :=
  l.dropWhile (fun p => now - p.2 > winMs)

/-- Entries of a time-stamped ring within `winMs` of `now`, scanned from the
newest backwards (`iter().rev()` with a `break` on the first stale entry). -/
def recentVals (winMs now : ℕ) (l : List (ℤ × ℕ)) : List ℤ :=
  (l.reverse.takeWhile (fun p => now - p.2 ≤ winMs)).map (fun p => p.1)

/-- Occurrence counts of each integer, keyed in first-appearance order
(model of the `HashMap<i32, usize>` tallies; the source's hash iteration
order is unspecified, which only affects which of several tied modes wins). -/
def tally (l : List ℤ) : List (ℤ × ℕ) :=
  l.foldl
    (fun acc k =>
      if acc.any (fun p => p.1 = k) then
        acc.map (fun p => if p.1 = k then (p.1, p.2 + 1) else p)
      else acc ++ [(k, 1)])
    []

/-- The `best` fold over the tally (`if c > bc { best = (k, c) }`). -/
def modeOf (l : List ℤ) : Option (ℤ × ℕ) :=
  (tally l).foldl
    (fun best p =>
      match best with
      | none => some p
      | some q => if p.2 > q.2 then some p else best)
    none

/-- Start of the `Some(raw)` branch (main.rs lines 514–530): reset the none
counter, remember the estimate source, detect a ≥ 6 dB RMS jump (which
enters fast relock and clears the anchor and `stable_vals`), and remember
the current dB. -/
def dbJumpPhase (from_short : Bool) (cur_db : ℚ) (now : ℕ) (s : DispState) : DispState :=
  let s := { s with none_cnt := 0, last_from_short := some from_short }
  let s :=
    match s.prev_rms_db with
    | some pdb =>
      if |cur_db - pdb| ≥ 6 then
        { s with fast_relock_deadline := some (now + 2000), anchor_bpm := none,
                 stable_vals := [] }
      else s
    | none => s
  { s with prev_rms_db := some cur_db }

/-- The adjusted confidence (main.rs lines 532–537): cap at 0.9, take the
0.9 power, apply the SNR boost, clamp to `[0, 0.95]`. -/
def adjConf (ops : FloatOps) (rawConf rms nf : ℚ) : ℚ :=
  let conf := min rawConf 0.9
  let conf := ops.powf conf 0.9
  let snr := max (rms / max nf (1/10^6)) 0
  let snr_boost := clampQ (snr / 2.5) 0.6 1.15
  clampQ (conf * snr_boost) 0 0.95

/-- Tracking hysteresis (main.rs lines 539–571): count hops above/below the
thresholds; three high hops enter tracking (setting `ever_locked`), two low
hops leave it. -/
def trackStep (conf : ℚ) (ultra : Bool) (s : DispState) : DispState :=
  let thr_hi : ℚ := if ultra then 0.15 else 0.40
  let thr_lo : ℚ := if ultra then 0.08 else 0.25
  let s := { s with hi_cnt := if conf ≥ thr_hi then s.hi_cnt + 1 else 0 }
  let s := { s with lo_cnt := if conf ≤ thr_lo then s.lo_cnt + 1 else 0 }
  let s :=
    if ¬s.tracking ∧ s.hi_cnt ≥ 3 then { s with tracking := true, ever_locked := true } else s
  if s.tracking ∧ s.lo_cnt ≥ 2 then { s with tracking := false } else s

/-- The state string reported per hop (main.rs line 573). -/
def stateOf (s : DispState) : BpState :=
  if s.tracking then .tracking else if s.ever_locked then .uncertain else .analyzing

/-- `in_fast` (main.rs line 574). -/
def inFastOf (s : DispState) (now : ℕ) : Bool :=
  match s.fast_relock_deadline with
  | some t => decide (now < t)
  | none => false

/-- One candidate of the anchor harmonic correction (main.rs lines 584–590):
adopt a candidate in `[60, 200]` only when it is clearly closer to the
anchor (`err + 0.2 < best_err`). -/
def tryCand (base val : ℚ) (acc : ℚ × ℚ) : ℚ × ℚ :=
  if 60 ≤ val ∧ val ≤ 200 then
    let err := |val - base|
    if err + 0.2 < acc.2 then (val, err) else acc
  else acc

/-- Anchor-based half/double/2-of-3 correction (main.rs lines 576–601). -/
def harmonicCorrect (anchor : Option ℚ) (disp : ℚ) : ℚ :=
  match anchor with
  | none => disp
  | some base =>
    let acc := (disp, |disp - base|)
    let acc := tryCand base (disp * 0.5) acc
    let acc := tryCand base (disp * 2) acc
    let acc := tryCand base (disp * (2/3)) acc
    let acc := tryCand base (disp * (3/2)) acc
    acc.1

/-- The bounded octave-folding loop of the EDM range normalisation
(main.rs lines 605–610): up to `fuel` doublings/halvings, stopping as soon
as the value is inside `[91, 180]`. -/
def octLoop : ℕ → ℚ → ℚ
  | 0, t => t
  | n + 1, t => if t < 91 then octLoop n (2 * t) else if t > 180 then octLoop n (t / 2) else t

/-- One unconditional step of the octave fold (double below 91, halve above
180, fix points inside the range): the iterated form of `octLoop`. -/
def octStep (t : ℚ) : ℚ := if t < 91 then 2 * t else if t > 180 then t / 2 else t

/-- `octStep` iterated `k` times. -/
def octIter (x : ℚ) : ℕ → ℚ
  | 0 => x
  | k + 1 => octStep (octIter x k)

/-- EDM range normalisation (main.rs lines 603–612): if the corrected value
is outside `[91, 180]`, run the octave-folding loop for at most 4 steps and
adopt the result only when it landed inside the range. -/
def edmNorm (disp : ℚ) : ℚ :=
  if disp < 91 ∨ disp > 180 then
    let t := octLoop 4 disp
    if 91 ≤ t ∧ t ≤ 180 then t else disp
  else disp

/-- Integer lock, TTL clearing (main.rs lines 624–627): clear the lock when
nothing was successfully shown for 10 s. -/
def lockTTL (now : ℕ) (s : DispState) : DispState :=
  match s.last_show_ms with
  | some last =>
    if now - last > 10000 then { s with lock_int := none, lock_cnt := 0, unlock_cnt := 0 }
    else s
  | none => s

/-- Integer lock, fast-relock / requested clearing (main.rs line 632). -/
def lockForceClear (in_fast : Bool) (s : DispState) : DispState :=
  if in_fast ∨ s.force_clear_lock then
    { s with lock_int := none, lock_cnt := 0, unlock_cnt := 0, alt_int := none,
             alt_cnt := 0, force_clear_lock := false }
  else s

/-- Integer lock, high-confidence large-deviation immediate unlock
(main.rs line 634). -/
def lockBigDev (conf disp : ℚ) (s : DispState) : DispState :=
  match s.lock_int with
  | some n =>
    if conf ≥ 0.85 ∧ |disp - (n : ℚ)| ≥ 2 then
      { s with lock_int := none, lock_cnt := 0, unlock_cnt := 0 }
    else s
  | none => s

/-- Integer lock, engage branch (main.rs lines 635–640): count matching
integers, promote immediately at high confidence, snap when stable. -/
def lockEngage (conf disp : ℚ) (disp_round : ℤ) (diff : ℚ) (s : DispState) : DispState × ℚ :=
  let s :=
    match s.lock_int with
    | some n =>
      if n = disp_round then { s with lock_cnt := sadd8 s.lock_cnt }
      else { s with lock_cnt := 1, lock_int := some disp_round }
    | none => { s with lock_int := some disp_round, lock_cnt := 1 }
  let s :=
    if conf ≥ 0.90 ∧ diff ≤ 0.4 ∧ s.lock_cnt < 2 then { s with lock_cnt := 2 } else s
  if s.lock_cnt ≥ 2 then ({ s with unlock_cnt := 0 }, (disp_round : ℚ)) else (s, disp)

/-- Integer lock, slow unlock (main.rs lines 642–648). -/
def lockUnlock (conf disp : ℚ) (n : ℤ) (s : DispState) : DispState :=
  if conf ≥ 0.82 ∧ |disp - (n : ℚ)| > 1.3 then
    let s := { s with unlock_cnt := sadd8 s.unlock_cnt }
    if s.unlock_cnt ≥ 3 then { s with lock_int := none, lock_cnt := 0, unlock_cnt := 0 }
    else s
  else { s with unlock_cnt := 0 }

/-- Integer lock, adjacent-integer switch (main.rs lines 649–667). -/
def lockAltSwitch (conf disp : ℚ) (disp_round n : ℤ) (in_fast : Bool) (s : DispState) :
    DispState × ℚ :=
  let switch_conf : ℚ := if in_fast then 0.70 else 0.82
  let switch_need : ℕ := if in_fast then 2 else 3
  if conf ≥ switch_conf then
    if |disp - (disp_round : ℚ)| ≤ 0.4 ∧ disp_round ≠ n then
      let s :=
        if s.alt_int = some disp_round then { s with alt_cnt := sadd8 s.alt_cnt }
        else { s with alt_int := some disp_round, alt_cnt := 1 }
      if s.alt_cnt ≥ switch_need then
        ({ s with lock_int := some disp_round, lock_cnt := 2, unlock_cnt := 0 },
         (disp_round : ℚ))
      else (s, disp)
    else ({ s with alt_cnt := 0 }, disp)
  else ({ s with alt_cnt := 0 }, disp)

/-- Integer lock, lock-deviation counting (main.rs line 669). -/
def lockDevCount (disp : ℚ) (n : ℤ) (s : DispState) : DispState :=
  if |disp - (n : ℚ)| ≥ 8 then { s with dev_from_lock_cnt := sadd8 s.dev_from_lock_cnt }
  else { s with dev_from_lock_cnt := 0 }

/-- Integer lock, the held-lock branch when the engage condition fails
(main.rs lines 641–670). -/
def lockHeld (conf disp : ℚ) (disp_round n : ℤ) (in_fast : Bool) (s : DispState) :
    DispState × ℚ :=
  let s := lockUnlock conf disp n s
  let sd := lockAltSwitch conf disp disp_round n in_fast s
  (lockDevCount sd.2 n sd.1, sd.2)

/-- The display-only integer lock (main.rs lines 614–674), acting on the
function-static lock variables carried in `DispState`.  Returns the updated
state and the possibly integer-snapped display value. -/
def lockPhase (conf disp : ℚ) (in_fast : Bool) (now : ℕ) (s : DispState) : DispState × ℚ :=
  let s := lockTTL now s
  let disp_round : ℤ := roundRust disp
  let diff := |disp - (disp_round : ℚ)|
  let s := lockForceClear in_fast s
  let s := lockBigDev conf disp s
  let sd :=
    if conf ≥ 0.80 ∧ diff ≤ 0.6 then lockEngage conf disp disp_round diff s
    else
      match s.lock_int with
      | some n => lockHeld conf disp disp_round n in_fast s
      | none => (s, disp)
  let s := if conf ≥ 0.80 then { sd.1 with last_show_ms := some now } else sd.1
  (s, sd.2)

/-- The two remaining fast-relock triggers (main.rs lines 683–700): recovery
from a long run of nones with `conf ≥ 0.50`, and two hops of ≥ 8 BPM
deviation from the integer lock (which additionally requests a lock clear
when the recent displayed integers have a dominant mode of count ≥ 3). -/
def recoveryPhase (conf : ℚ) (now : ℕ) (s : DispState) : DispState :=
  let s :=
    if s.recent_none_flag ∧ conf ≥ 0.50 then
      { s with fast_relock_deadline := some (now + 2000), anchor_bpm := none,
               recent_none_flag := false, stable_vals := [] }
    else s
  if s.dev_from_lock_cnt ≥ 2 then
    let s := { s with fast_relock_deadline := some (now + 2000), anchor_bpm := none,
                      dev_from_lock_cnt := 0, stable_vals := [] }
    match modeOf (recentVals 1500 now s.recent_ints) with
    | some kc => if kc.2 ≥ 3 then { s with force_clear_lock := true } else s
    | none => s
  else s

/-- Stable aggregation and the alpha-beta display predictor
(main.rs lines 702–733). -/
def smoothPhase (conf disp : ℚ) (now : ℕ) (s : DispState) : DispState :=
  let s := { s with stable_vals := pruneFront 1500 now (s.stable_vals ++ [(disp, now)]) }
  let win_sorted := sortQ (s.stable_vals.map (fun p => p.1))
  let win_sorted := if win_sorted.isEmpty then [disp] else win_sorted
  let mid := win_sorted.getD (win_sorted.length / 2) 0
  let smoothed :=
    match s.ema_disp with
    | some prev => prev * 0.85 + mid * 0.15
    | none => mid
  let s := { s with ema_disp := some smoothed }
  let s := if s.trk_x.isNone then { s with trk_x := some smoothed, trk_v := 0 } else s
  match s.trk_x with
  | some x =>
    let dt : ℚ := 0.5
    let x_pred := x + s.trk_v * dt
    let z := smoothed
    let gain_scale : ℚ := if conf < 0.70 then 0.6 else if conf < 0.80 then 0.8 else 1
    let a := 0.28 * gain_scale
    let b := 0.06 * gain_scale
    let r := z - x_pred
    let x' := x_pred + a * r
    let s := { s with trk_v := s.trk_v + (b * r) / dt, trk_x := some x' }
    if conf < 0.80 then { s with ema_disp := some x' } else s
  | none => s

/-- One candidate of the hard-gate harmonic pull-back
(main.rs line 753). -/
def pullbackCand (base disp m : ℚ) (acc : ℚ × ℚ) : ℚ × ℚ :=
  let v := disp * m
  if 60 ≤ v ∧ v ≤ 200 then
    let e := |v - base| / max base (1/10^6)
    if e < acc.2 then (v, e) else acc
  else acc

/-- The hard-gate guard base (main.rs lines 740–745): the anchor, else the
rounded previously displayed bpm when positive. -/
def baseForGuard (s : DispState) (slot : Option DisplayBpm) : Option ℚ :=
  match s.anchor_bpm with
  | some b => some b
  | none =>
    match slot with
    | some prev => if prev.bpm > 0 then some ((roundRust prev.bpm : ℤ) : ℚ) else none
    | none => none

/-- The hard gate with outlier suppression and harmonic pull-back
(main.rs lines 737–760).  Returns the admission flag and the possibly
pulled-back display value. -/
def hardGate (conf disp0 : ℚ) (s : DispState) (slot : Option DisplayBpm) : Bool × ℚ :=
  if conf ≥ 0.80 then
    match baseForGuard s slot with
    | some base =>
      if s.tracking then
        let rel := |disp0 - base| / max base (1/10^6)
        if rel > 0.12 then
          let acc := (disp0, rel)
          let acc := pullbackCand base disp0 0.5 acc
          let acc := pullbackCand base disp0 2 acc
          let acc := pullbackCand base disp0 (2/3) acc
          let acc := pullbackCand base disp0 (3/2) acc
          if acc.2 ≤ 0.08 then (true, acc.1) else (false, disp0)
        else (true, disp0)
      else (true, disp0)
    | none => (true, disp0)
  else (false, disp0)

/-- The out-of-range suppression on top of the hard gate
(main.rs lines 761–770). -/
def hardRange (conf disp : ℚ) (admitted : Bool) (s : DispState) (slot : Option DisplayBpm) :
    Bool :=
  if admitted then
    match baseForGuard s slot with
    | some _ => if (disp > 180 ∨ disp < 91) ∧ conf ≥ 0.80 then false else true
    | none => true
  else false

/-- The soft gate (main.rs lines 772–789): moderate confidence plus
near-neighbour consensus over the recent stable values. -/
def softGate (conf disp : ℚ) (allow_hard in_fast : Bool) (now : ℕ) (s : DispState) : Bool :=
  let soft_thr : ℚ := if in_fast then 0.50 else 0.55
  if ¬allow_hard ∧ conf ≥ soft_thr then
    let span : ℕ := if in_fast then 1000 else 1500
    let recent := (s.stable_vals.reverse.takeWhile (fun p => now - p.2 ≤ span)).map
      (fun p => p.1)
    if recent.length ≥ 2 then
      let near := (recent.filter (fun v => |v - disp| ≤ 0.8)).length
      let need : ℕ := if in_fast then 2 else 3
      if near ≥ need ∧ 60 ≤ disp ∧ disp ≤ 180 then true else false
    else false
  else false

/-- The majority gate (main.rs lines 791–803): the recent candidate-integer
mode admits a display on its own. -/
def majorGate (disp : ℚ) (allow_hard allow_soft in_fast : Bool) (now : ℕ) (s : DispState)
    (slot : Option DisplayBpm) : Bool :=
  if ¬allow_hard ∧ ¬allow_soft then
    match modeOf (recentVals 1200 now s.recent_ints_cand) with
    | some kc =>
      let need : ℕ := if in_fast then 2 else 3
      let prev_int : ℤ :=
        match slot with
        | some g => roundRust g.bpm
        | none => roundRust disp
      if kc.2 ≥ need ∧ kc.1 ≠ prev_int ∧ 60 ≤ kc.1 ∧ kc.1 ≤ 180 then true else false
    | none => false
  else false

/-- The state attached to an admitted display (main.rs lines 806–815):
`uncertain` for soft admissions, upgraded to the remembered hard state when
the integer matches, forced back to `uncertain` in fast relock when the
integer changed. -/
def showStateOf (allow_soft in_fast : Bool) (disp_int : ℤ) (s : DispState)
    (slot : Option DisplayBpm) : BpState :=
  if allow_soft then
    let ss : BpState := .uncertain
    let ss :=
      match s.last_hard_int with
      | some p => if p = disp_int then s.last_hard_state.getD .tracking else ss
      | none => ss
    if in_fast then
      match slot with
      | some prev => if roundRust prev.bpm ≠ disp_int then .uncertain else ss
      | none => ss
    else ss
  else stateOf s

/-- The published payload with the majority-mode override
(main.rs lines 818–834). -/
def payloadOf (conf level disp : ℚ) (show_state : BpState) (disp_int : ℤ) (in_fast : Bool)
    (now : ℕ) (s : DispState) (slot : Option DisplayBpm) : DisplayBpm :=
  match modeOf (recentVals 1500 now s.recent_ints_cand) with
  | some kc =>
    let prev_int : ℤ :=
      match slot with
      | some g => roundRust g.bpm
      | none => disp_int
    let need : ℕ := if in_fast then 2 else 3
    if kc.2 ≥ need ∧ kc.1 ≠ prev_int then
      { bpm := (kc.1 : ℚ), confidence := conf, state := .uncertain, level := level }
    else { bpm := disp, confidence := conf, state := show_state, level := level }
  | none => { bpm := disp, confidence := conf, state := show_state, level := level }

/-- The publish block (main.rs lines 735–849): hard, soft and majority
admission gates, the outlier and out-of-range suppressions, the soft-gate
state upgrade, the majority-mode payload override, the display-slot write
and the displayed-integer bookkeeping.  Returns the updated state, the
(possibly pulled-back) display value, and the written payload, if any. -/
def publishPhase (conf level disp0 : ℚ) (in_fast : Bool) (now : ℕ) (s : DispState)
    (slot : Option DisplayBpm) : DispState × ℚ × Option DisplayBpm :=
  let hd := hardGate conf disp0 s slot
  let disp := hd.2
  let allow_hard := hardRange conf disp hd.1 s slot
  let allow_soft := softGate conf disp allow_hard in_fast now s
  let allow_major := majorGate disp allow_hard allow_soft in_fast now s slot
  if allow_hard ∨ allow_soft ∨ allow_major then
    let st := stateOf s
    let disp_int : ℤ := roundRust disp
    let show_state := showStateOf allow_soft in_fast disp_int s slot
    let payload := payloadOf conf level disp show_state disp_int in_fast now s slot
    let s :=
      if ¬allow_soft then { s with last_hard_int := some disp_int, last_hard_state := some st }
      else s
    let s := { s with recent_ints := pruneFront 1500 now (s.recent_ints ++ [(roundRust payload.bpm, now)]) }
    (s, disp, some payload)
  else (s, disp, none)

/-- Gated anchor update (main.rs lines 852–866). -/
def anchorPhase (conf disp : ℚ) (s : DispState) : DispState :=
  if s.tracking ∧ conf ≥ 0.85 then
    match s.anchor_bpm with
    | some base =>
      let rel := |disp - base| / max base (1/10^6)
      if rel ≤ 0.08 ∧ 60 ≤ disp ∧ disp ≤ 160 then
        { s with anchor_bpm := some (base * 0.85 + disp * 0.15) }
      else s
    | none => if 60 ≤ disp ∧ disp ≤ 160 then { s with anchor_bpm := some disp } else s
  else s

/-- The full `Some(raw)` branch of a hop (main.rs lines 514–883), given the
precomputed `level`, window RMS and window dB. -/
def hopSome (ops : FloatOps) (raw : BpmEstimate) (now : ℕ) (level rms cur_db : ℚ)
    (s : DispState) (slot : Option DisplayBpm) : DispState × Option DisplayBpm :=
  let s := dbJumpPhase raw.from_short cur_db now s
  let conf := adjConf ops raw.confidence rms s.noise_floor_rms
  let s := trackStep conf (raw.win_sec ≤ 0.1) s
  let in_fast := inFastOf s now
  let disp := edmNorm (harmonicCorrect s.anchor_bpm raw.bpm)
  let ld := lockPhase conf disp in_fast now s
  let s := ld.1
  let disp := ld.2
  let s := { s with recent_ints_cand := pruneFront 1500 now (s.recent_ints_cand ++ [(roundRust disp, now)]) }
  let s := recoveryPhase conf now s
  let s := smoothPhase conf disp now s
  let pub := publishPhase conf level disp in_fast now s slot
  let s := anchorPhase conf pub.2.1 pub.1
  (s, pub.2.2)

/-- Sidechain coefficient initialisation (main.rs lines 430–436). -/
def scInitPhase (ops : FloatOps) (s : DispState) : DispState :=
  if s.sc_hp_alpha = 0 ∨ s.sc_lp_alpha = 0 then
    { s with sc_hp_alpha := ops.exp (-(2 * piQ * 60) / s.sr),
             sc_lp_alpha := ops.exp (-(2 * piQ * 180) / s.sr),
             sc_hp_lp_prev := 0, sc_lp_prev := 0 }
  else s

/-- Analysis-branch loudness normalisation (main.rs lines 477–512).  Only its
state updates are modelled; the gained copy of the frames feeds the abstract
backend, whose per-hop output is an input of the hop event. -/
def normPhase (ops : FloatOps) (frames : List ℚ) (s : DispState) : DispState :=
  let len : ℚ := (frames.length : ℚ)
  let rms := max (ops.sqrt (sumsq frames / len)) (1/10^9)
  let fold := frames.foldl
    (fun (a : ℚ × ℚ × ℚ) v =>
      let hp_lp := s.sc_hp_alpha * a.1 + (1 - s.sc_hp_alpha) * v
      let hp := v - hp_lp
      let lp := s.sc_lp_alpha * a.2.1 + (1 - s.sc_lp_alpha) * hp
      (hp_lp, lp, a.2.2 + lp * lp))
    (s.sc_hp_lp_prev, s.sc_lp_prev, 0)
  let s := { s with sc_hp_lp_prev := fold.1, sc_lp_prev := fold.2.1 }
  let sc_rms := max (ops.sqrt (fold.2.2 / len)) (1/10^9)
  let rhythm_ratio := clampQ (sc_rms / max rms (1/10^9)) 0 1
  let cur_dbfs := 20 * ops.log10 rms
  let need0 := (-18 : ℚ) - cur_dbfs
  let dyn_max : ℚ := if rhythm_ratio ≥ 0.25 then max 36 42 else min 36 18
  let need1 := if need0 > dyn_max then dyn_max else need0
  let need2 := if need1 < -12 then (-12 : ℚ) else need1
  let a : ℚ := if need2 > s.norm_gain_db_smooth then 0.25 else 0.08
  { s with norm_gain_db_smooth := s.norm_gain_db_smooth * (1 - a) + need2 * a }

/-- One full hop of the analysis loop once the window is full
(main.rs lines 427–916): level and dB computation, noise-floor update, the
silence branch, the normaliser state update, and either the `Some(raw)`
branch or the none branch.  Returns the updated state and the display-slot
write, if any. -/
def hopStep (ops : FloatOps) (frames : List ℚ) (raw : Option BpmEstimate) (now : ℕ)
    (s : DispState) (slot : Option DisplayBpm) : DispState × Option DisplayBpm :=
  let s := scInitPhase ops s
  let level := level_from_frames ops frames
  let rms := ops.sqrt (sumsq frames / (frames.length : ℚ))
  let cur_db := 20 * ops.log10 (max rms (1/10^9))
  let s := { s with noise_floor_rms := s.noise_floor_rms * 0.99 + rms * 0.01 }
  if level < 0.03 then
    let s := { s with tracking := false, ever_locked := false, hi_cnt := 0, lo_cnt := 0,
                      norm_gain_db_smooth := 0, silent_win_cnt := s.silent_win_cnt + 1 }
    let payload : DisplayBpm := { bpm := 0, confidence := 0, state := .analyzing, level := level }
    let s := { s with ema_disp := none, prev_rms_db := none, was_silent_flag := true }
    (s, some payload)
  else
    let s := { s with was_silent_flag := false, silent_win_cnt := 0 }
    let s := normPhase ops frames s
    match raw with
    | some r => hopSome ops r now level rms cur_db s slot
    | none =>
      let s := { s with none_cnt := s.none_cnt + 1 }
      let s := if s.none_cnt ≥ 6 then { s with tracking := false, ever_locked := false } else s
      let payload : DisplayBpm :=
        match slot with
        | some last =>
          { bpm := last.bpm, confidence := 0,
            state := if s.ever_locked then .uncertain else .analyzing, level := level }
        | none => { bpm := 0, confidence := 0, state := .analyzing, level := level }
      let s := if s.none_cnt ≥ 6 then { s with recent_none_flag := true } else s
      (s, some payload)

/-- The soft-reset block at the top of the loop (main.rs lines 320–331):
clear the listed state and publish a zeroed display. -/
def handleReset (s : DispState) : DispState × Option DisplayBpm :=
  let s := { s with ema_disp := none, prev_rms_db := none, anchor_bpm := none,
                    stable_vals := [], hi_cnt := 0, lo_cnt := 0, tracking := false,
                    ever_locked := false, none_cnt := 0, dev_from_lock_cnt := 0,
                    force_clear_lock := true, recent_none_flag := false,
                    last_hard_int := none, last_hard_state := none, trk_x := none,
                    trk_v := 0, recent_ints := [], recent_ints_cand := [],
                    noise_floor_rms := 0.01 }
  (s, some { bpm := 0, confidence := 0, state := .analyzing, level := 0 })

/-- The sample-rate-change block (main.rs lines 335–353): rebuild the
sidechain coefficients, clear the listed state and publish a zeroed
display. -/
def handleSrChange (ops : FloatOps) (newSr : ℚ) (s : DispState) : DispState × Option DisplayBpm :=
  let s := { s with sr := newSr,
                    sc_hp_alpha := ops.exp (-(2 * piQ * 60) / newSr),
                    sc_lp_alpha := ops.exp (-(2 * piQ * 180) / newSr),
                    sc_hp_lp_prev := 0, sc_lp_prev := 0,
                    ema_disp := none, prev_rms_db := none, anchor_bpm := none,
                    stable_vals := [], hi_cnt := 0, lo_cnt := 0, tracking := false,
                    ever_locked := false, none_cnt := 0, dev_from_lock_cnt := 0,
                    force_clear_lock := true }
  (s, some { bpm := 0, confidence := 0, state := .analyzing, level := 0 })

/-- The 1.5 s no-data branch (main.rs lines 412–423): publish zeros and drop
tracking. -/
def handleNoData (s : DispState) : DispState × Option DisplayBpm :=
  ({ s with tracking := false, ever_locked := false, hi_cnt := 0, lo_cnt := 0 },
   some { bpm := 0, confidence := 0, state := .analyzing, level := 0 })

/-- The events the analysis loop reacts to. -/
inductive CapEvent
  | reset
  | srChange (newSr : ℚ)
  | noData
  | hop (frames : List ℚ) (raw : Option BpmEstimate) (now : ℕ)

/-- One loop reaction: the state update and the display-slot write, if any. -/
def step (ops : FloatOps) (ev : CapEvent) (s : DispState) (slot : Option DisplayBpm) :
    DispState × Option DisplayBpm :=
  match ev with
  | .reset => handleReset s
  | .srChange sr => handleSrChange ops sr s
  | .noData => handleNoData s
  | .hop frames raw now => hopStep ops frames raw now s slot

/-- One loop reaction together with the resulting display-slot contents:
a write replaces the slot, otherwise the slot is unchanged. -/
def runStep (ops : FloatOps) (ev : CapEvent) (s : DispState) (slot : Option DisplayBpm) :
    DispState × Option DisplayBpm :=
  let r := step ops ev s slot
  (r.1, match r.2 with | some p => some p | none => slot)

/-! ## Command surface (`src-tauri/src/main.rs`, commands) -/

/-- The process-wide front-end state once `start_capture` has initialised the
singletons: the reset flag and the shared display slot. -/
structure Frontend where
  reset_requested : Bool
  current_bpm : Option DisplayBpm
deriving DecidableEq

/-- `reset_backend` (main.rs lines 212–235): raise the reset flag and
immediately publish a zeroed "analyzing" display. -/
def reset_backend (_f : Frontend) : Frontend :=
  { reset_requested := true
    current_bpm := some { bpm := 0, confidence := 0, state := .analyzing, level := 0 } }

/-- `get_current_bpm` (main.rs lines 169–172). -/
def get_current_bpm (f : Frontend) : Option DisplayBpm := f.current_bpm

/-- The analyzer consuming the reset flag at the top of the next hop
(main.rs lines 320–331): on a raised flag, clear the analyzer state and
write the zeroed display. -/
def consumeReset (f : Frontend) (s : DispState) : Frontend × DispState :=
  if f.reset_requested then
    let r := handleReset s
    ({ reset_requested := false,
       current_bpm := match r.2 with | some p => some p | none => f.current_bpm }, r.1)
  else (f, s)

/-! ## Concrete states used for evaluating the model -/

/-- A concrete stabilizer state (the loop's initial values at a 48 kHz
device, with nonzero sidechain coefficients). -/
def baseDisp : DispState :=
  { sr := 48000, hi_cnt := 0, lo_cnt := 0, tracking := false, ever_locked := false,
    none_cnt := 0, silent_win_cnt := 0, anchor_bpm := none, ema_disp := none,
    stable_vals := [], fast_relock_deadline := none, prev_rms_db := none,
    recent_none_flag := false, dev_from_lock_cnt := 0, was_silent_flag := false,
    last_from_short := none, last_hard_int := none, last_hard_state := none,
    noise_floor_rms := 0.01, trk_x := none, trk_v := 0, recent_ints := [],
    recent_ints_cand := [], force_clear_lock := false, norm_gain_db_smooth := 0,
    sc_hp_alpha := 1/2, sc_lp_alpha := 1/2, sc_hp_lp_prev := 0, sc_lp_prev := 0,
    lock_int := none, lock_cnt := 0, unlock_cnt := 0, last_show_ms := none,
    alt_int := none, alt_cnt := 0 }

/-- A concrete estimator state with the parameters set by
`BpmEstimator::new`, an empty envelope buffer, and literal filter
coefficients. -/
def baseEst : EstState :=
  { sample_rate := 48000, ds_rate := 200, buf := [], min_bpm := 91, max_bpm := 180,
    hp_alpha := 1/2, lp_alpha := 1/2, hp_lp_prev := 0, lp_prev := 0, prev_bp := 0,
    last_input_rms_db := -120, last_short_bpm := none, short_consistency := 0,
    last_bpm := none }

/-! ## Support lemmas -/

theorem adjConf_mem (ops : FloatOps) (c r n : ℚ) :
    0 ≤ adjConf ops c r n ∧ adjConf ops c r n ≤ 0.95 := by
  unfold adjConf
  exact clampQ_mem _ (by norm_num)

theorem level_from_frames_mem (ops : FloatOps) (frames : List ℚ) :
    0 ≤ level_from_frames ops frames ∧ level_from_frames ops frames ≤ 1 := by
  unfold level_from_frames
  split
  · norm_num
  · exact clampQ_mem _ (by norm_num)

theorem payloadOf_conf_level (conf level disp : ℚ) (ss : BpState) (di : ℤ) (f : Bool)
    (now : ℕ) (s : DispState) (slot : Option DisplayBpm) :
    (payloadOf conf level disp ss di f now s slot).confidence = conf ∧
    (payloadOf conf level disp ss di f now s slot).level = level := by
  unfold payloadOf
  split
  · split <;> simp [apply_ite DisplayBpm.confidence, apply_ite DisplayBpm.level]
  · simp

theorem publishPhase_write_conf_level (conf level disp0 : ℚ) (in_fast : Bool) (now : ℕ)
    (s : DispState) (slot : Option DisplayBpm) (p : DisplayBpm)
    (h : (publishPhase conf level disp0 in_fast now s slot).2.2 = some p) :
    p.confidence = conf ∧ p.level = level := by
  simp only [publishPhase] at h
  split at h
  · simp only [Option.some.injEq] at h
    subst h
    exact payloadOf_conf_level ..
  · simp at h

/-! ## Claim C3: octave normalisation -/

theorem octIter_fixed (t : ℚ) (h1 : 91 ≤ t) (h2 : t ≤ 180) : ∀ n, octIter t n = t := by
  intro n
  induction n with
  | zero => rfl
  | succ k ih =>
    show octStep (octIter t k) = t
    rw [ih]
    unfold octStep
    rw [if_neg (by linarith), if_neg (by linarith)]

theorem octIter_add_of_inRange (x : ℚ) (k : ℕ) (h1 : 91 ≤ octIter x k)
    (h2 : octIter x k ≤ 180) : ∀ j, octIter x (k + j) = octIter x k := by
  intro j
  induction j with
  | zero => rfl
  | succ m ih =>
    show octStep (octIter x (k + m)) = octIter x k
    rw [ih]
    unfold octStep
    rw [if_neg (by linarith), if_neg (by linarith)]

theorem octIter_succ_shift : ∀ (m : ℕ) (u : ℚ), octIter u (m + 1) = octIter (octStep u) m := by
  intro m
  induction m with
  | zero => intro u; rfl
  | succ j ihj =>
    intro u
    show octStep (octIter u (j + 1)) = octStep (octIter (octStep u) j)
    rw [ihj]

theorem octLoop_eq_octIter : ∀ (n : ℕ) (t : ℚ), octLoop n t = octIter t n := by
  intro n
  induction n with
  | zero => intro t; rfl
  | succ m ih =>
    intro t
    rw [octIter_succ_shift]
    unfold octLoop
    by_cases h1 : t < 91
    · rw [if_pos h1, ih]
      unfold octStep
      rw [if_pos h1]
    · rw [if_neg h1]
      by_cases h2 : t > 180
      · rw [if_pos h2, ih]
        unfold octStep
        rw [if_neg h1, if_pos h2]
      · rw [if_neg h2]
        have hfix : octStep t = t := by
          unfold octStep
          rw [if_neg h1, if_neg h2]
        rw [hfix, octIter_fixed t (by linarith) (by linarith)]

/-- Claim C3: values already in `[91, 180]` are left unchanged by the octave
normalisation; for a value outside the range, the step doubles below 91 and
halves above 180, for at most 4 steps: if some iterate lands in `[91, 180]`
the result is that iterate (the iteration is then stationary, so it equals
the fourth iterate), otherwise the value is left unchanged; and an input of
exactly 90 maps to 180. -/
theorem C3_octave_normalization :
    (∀ x : ℚ, 91 ≤ x → x ≤ 180 → edmNorm x = x) ∧
    (∀ x : ℚ, x < 91 ∨ 180 < x →
      ((∃ k, k ≤ 4 ∧ 91 ≤ octIter x k ∧ octIter x k ≤ 180) →
        edmNorm x = octIter x 4 ∧ 91 ≤ edmNorm x ∧ edmNorm x ≤ 180) ∧
      ((∀ k, k ≤ 4 → ¬(91 ≤ octIter x k ∧ octIter x k ≤ 180)) → edmNorm x = x)) ∧
    edmNorm 90 = 180 := by
  refine ⟨?_, ?_, ?_⟩
  · intro x h1 h2
    unfold edmNorm
    rw [if_neg]
    push_neg
    exact ⟨by linarith, by linarith⟩
  · intro x hx
    constructor
    · rintro ⟨k, hk4, h91, h180⟩
      have h4 : octIter x 4 = octIter x k := by
        have := octIter_add_of_inRange x k h91 h180 (4 - k)
        rwa [Nat.add_sub_cancel' hk4] at this
      have hcond : x < 91 ∨ x > 180 := hx
      unfold edmNorm
      rw [if_pos hcond, octLoop_eq_octIter, h4, if_pos ⟨h91, h180⟩]
      exact ⟨rfl, h91, h180⟩
    · intro hall
      have hcond : x < 91 ∨ x > 180 := hx
      unfold edmNorm
      rw [if_pos hcond, octLoop_eq_octIter]
      rw [if_neg (hall 4 (le_refl 4))]
  · norm_num [edmNorm, octLoop]

/-- Witness for C3: the in-range input 128 is unchanged, and the out-of-range
input 45 (which reaches 180 after two doublings) is folded into the range. -/
theorem C3_octave_normalization_witness :
    edmNorm 128 = 128 ∧ (edmNorm 45 = octIter 45 4 ∧ 91 ≤ edmNorm 45 ∧ edmNorm 45 ≤ 180) :=
  ⟨C3_octave_normalization.1 128 (by norm_num) (by norm_num),
   (C3_octave_normalization.2.1 45 (Or.inl (by norm_num))).1
     ⟨2, by norm_num, by norm_num [octIter, octStep], by norm_num [octIter, octStep]⟩⟩

/-! ## Claim C1: published confidence and level bounds -/

/-- Claim C1: every value published to consumers — by any loop reaction
(reset, sample-rate change, no-data timeout, silence hop, none hop, or a
successful estimate hop) and by `reset_backend` — has confidence in
`[0, 0.95]` and level in `[0, 1]`. -/
theorem C1_published_bounds :
    (∀ (ops : FloatOps) (ev : CapEvent) (s : DispState) (slot : Option DisplayBpm)
        (p : DisplayBpm), (step ops ev s slot).2 = some p →
        0 ≤ p.confidence ∧ p.confidence ≤ 0.95 ∧ 0 ≤ p.level ∧ p.level ≤ 1) ∧
    (∀ (f : Frontend) (p : DisplayBpm), (reset_backend f).current_bpm = some p →
        0 ≤ p.confidence ∧ p.confidence ≤ 0.95 ∧ 0 ≤ p.level ∧ p.level ≤ 1) := by
  constructor
  · intro ops ev s slot p h
    cases ev with
    | reset =>
      simp only [step, handleReset, Option.some.injEq] at h
      subst h
      norm_num
    | srChange sr =>
      simp only [step, handleSrChange, Option.some.injEq] at h
      subst h
      norm_num
    | noData =>
      simp only [step, handleNoData, Option.some.injEq] at h
      subst h
      norm_num
    | hop frames raw now =>
      simp only [step, hopStep] at h
      have hlvl := level_from_frames_mem ops frames
      split at h
      · simp only [Option.some.injEq] at h
        subst h
        exact ⟨le_refl 0, by norm_num, hlvl.1, hlvl.2⟩
      · cases raw with
        | some r =>
          simp only [hopSome] at h
          have hc := publishPhase_write_conf_level _ _ _ _ _ _ _ _ h
          rw [hc.1, hc.2]
          exact ⟨(adjConf_mem _ _ _ _).1, (adjConf_mem _ _ _ _).2, hlvl.1, hlvl.2⟩
        | none =>
          cases slot with
          | some last =>
            simp only [Option.some.injEq] at h
            subst h
            exact ⟨le_refl 0, by norm_num, hlvl.1, hlvl.2⟩
          | none =>
            simp only [Option.some.injEq] at h
            subst h
            exact ⟨le_refl 0, by norm_num, hlvl.1, hlvl.2⟩
  · intro f p h
    simp only [reset_backend, Option.some.injEq] at h
    subst h
    norm_num

/-- Witness for C1: the zeroed display published by a reset satisfies the
bounds. -/
theorem C1_published_bounds_witness :
    0 ≤ (DisplayBpm.mk 0 0 .analyzing 0).confidence ∧
    (DisplayBpm.mk 0 0 .analyzing 0).confidence ≤ 0.95 ∧
    0 ≤ (DisplayBpm.mk 0 0 .analyzing 0).level ∧
    (DisplayBpm.mk 0 0 .analyzing 0).level ≤ 1 :=
  C1_published_bounds.1 dummyOps .reset baseDisp none _ rfl

/-! ## Claim C9: reset idempotence -/

/-- Claim C9: calling `reset_backend` twice in succession leaves the same
post-reset state as calling it once — the reset flag, the published zeroed
display, and the analyzer state cleared when the flag is consumed at the
next hop are identical. -/
theorem C9_reset_idempotent :
    (∀ f : Frontend, reset_backend (reset_backend f) = reset_backend f) ∧
    (∀ (f : Frontend) (s : DispState),
        consumeReset (reset_backend (reset_backend f)) s = consumeReset (reset_backend f) s) := by
  constructor
  · intro f
    rfl
  · intro f s
    rfl

/-! ## Claim C10: the display slot never reverts to `None` -/

/-- Claim C10: every display-slot write made by the loop stores a `Some`
value (in the model, a step either leaves the slot alone or replaces it by a
written payload), and `reset_backend` writes a `Some`; hence once the slot
holds a value, `get_current_bpm` never returns `None` again. -/
theorem C10_slot_stays_some :
    (∀ (ops : FloatOps) (ev : CapEvent) (s : DispState) (slot : Option DisplayBpm),
        slot.isSome = true → ((runStep ops ev s slot).2).isSome = true) ∧
    (∀ f : Frontend, (get_current_bpm (reset_backend f)).isSome = true) := by
  constructor
  · intro ops ev s slot hs
    simp only [runStep]
    cases h : (step ops ev s slot).2 with
    | some p => rfl
    | none => exact hs
  · intro f
    rfl

/-- Witness for C10: a populated slot stays populated across a reset step. -/
theorem C10_slot_stays_some_witness :
    ((runStep dummyOps .reset baseDisp (some (DisplayBpm.mk 0 0 .analyzing 0))).2).isSome = true :=
  C10_slot_stays_some.1 dummyOps .reset baseDisp _ rfl

/-! ## Field-preservation lemmas for the hop phases -/

theorem dbJumpPhase_frame (fs : Bool) (db : ℚ) (now : ℕ) (s : DispState) :
    (dbJumpPhase fs db now s).ever_locked = s.ever_locked ∧
    (dbJumpPhase fs db now s).tracking = s.tracking ∧
    (dbJumpPhase fs db now s).none_cnt = 0 := by
  simp only [dbJumpPhase]
  (repeat' split) <;> simp

theorem dbJumpPhase_anchor (fs : Bool) (db : ℚ) (now : ℕ) (s : DispState) :
    (dbJumpPhase fs db now s).anchor_bpm = s.anchor_bpm ∨
    (dbJumpPhase fs db now s).anchor_bpm = none := by
  simp only [dbJumpPhase]
  (repeat' split) <;> simp

theorem trackStep_frame (c : ℚ) (u : Bool) (s : DispState) :
    (trackStep c u s).anchor_bpm = s.anchor_bpm ∧
    (trackStep c u s).noise_floor_rms = s.noise_floor_rms := by
  simp only [trackStep]
  (repeat' split) <;> simp

/-- The tracking-related fields the integer lock never touches. -/
def SameFlags (a b : DispState) : Prop :=
  a.ever_locked = b.ever_locked ∧ a.tracking = b.tracking ∧ a.anchor_bpm = b.anchor_bpm

theorem SameFlags.refl' (a : DispState) : SameFlags a a := ⟨rfl, rfl, rfl⟩

theorem SameFlags.trans' {a b c : DispState} (h1 : SameFlags a b) (h2 : SameFlags b c) :
    SameFlags a c :=
  ⟨h1.1.trans h2.1, h1.2.1.trans h2.2.1, h1.2.2.trans h2.2.2⟩

theorem lockTTL_sf (n : ℕ) (s : DispState) : SameFlags (lockTTL n s) s := by
  simp only [lockTTL]
  (repeat' split) <;> simp [SameFlags]

theorem lockForceClear_sf (f : Bool) (s : DispState) : SameFlags (lockForceClear f s) s := by
  simp only [lockForceClear]
  (repeat' split) <;> simp [SameFlags]

theorem lockBigDev_sf (c d : ℚ) (s : DispState) : SameFlags (lockBigDev c d s) s := by
  simp only [lockBigDev]
  (repeat' split) <;> simp [SameFlags]

theorem lockEngage_sf (c d : ℚ) (r : ℤ) (diff : ℚ) (s : DispState) :
    SameFlags (lockEngage c d r diff s).1 s := by
  simp only [lockEngage]
  (repeat' split) <;> simp [SameFlags]

theorem lockUnlock_sf (c d : ℚ) (n : ℤ) (s : DispState) : SameFlags (lockUnlock c d n s) s := by
  simp only [lockUnlock]
  (repeat' split) <;> simp [SameFlags]

theorem lockAltSwitch_sf (c d : ℚ) (r n : ℤ) (f : Bool) (s : DispState) :
    SameFlags (lockAltSwitch c d r n f s).1 s := by
  simp only [lockAltSwitch]
  (repeat' split) <;> simp [SameFlags]

theorem lockDevCount_sf (d : ℚ) (n : ℤ) (s : DispState) : SameFlags (lockDevCount d n s) s := by
  simp only [lockDevCount]
  (repeat' split) <;> simp [SameFlags]

theorem lockHeld_sf (c d : ℚ) (r n : ℤ) (f : Bool) (s : DispState) :
    SameFlags (lockHeld c d r n f s).1 s := by
  simp only [lockHeld]
  exact ((lockDevCount_sf _ _ _).trans' ((lockAltSwitch_sf _ _ _ _ _ _).trans'
    (lockUnlock_sf _ _ _ _)))

theorem lockPhase_sf (c d : ℚ) (f : Bool) (n : ℕ) (s : DispState) :
    SameFlags (lockPhase c d f n s).1 s := by
  simp only [lockPhase]
  have h3 : SameFlags (lockBigDev c d (lockForceClear f (lockTTL n s))) s :=
    (lockBigDev_sf _ _ _).trans' ((lockForceClear_sf _ _).trans' (lockTTL_sf _ _))
  have hsd : SameFlags
      (if 0.80 ≤ c ∧ |d - ((roundRust d : ℤ) : ℚ)| ≤ 0.6 then
        lockEngage c d (roundRust d) |d - ((roundRust d : ℤ) : ℚ)|
          (lockBigDev c d (lockForceClear f (lockTTL n s)))
      else
        match (lockBigDev c d (lockForceClear f (lockTTL n s))).lock_int with
        | some m => lockHeld c d (roundRust d) m f (lockBigDev c d (lockForceClear f (lockTTL n s)))
        | none => (lockBigDev c d (lockForceClear f (lockTTL n s)), d)).1 s := by
    split
    · exact (lockEngage_sf _ _ _ _ _).trans' h3
    · rcases hl : (lockBigDev c d (lockForceClear f (lockTTL n s))).lock_int with _ | m
      · simpa [hl] using h3
      · simpa [hl] using (lockHeld_sf c d (roundRust d) m f _).trans' h3
  split
  · exact SameFlags.trans' (by exact ⟨rfl, rfl, rfl⟩) hsd
  · exact hsd

theorem lockPhase_frame (c d : ℚ) (f : Bool) (n : ℕ) (s : DispState) :
    (lockPhase c d f n s).1.ever_locked = s.ever_locked ∧
    (lockPhase c d f n s).1.tracking = s.tracking ∧
    (lockPhase c d f n s).1.anchor_bpm = s.anchor_bpm :=
  lockPhase_sf c d f n s

theorem recoveryPhase_frame (c : ℚ) (n : ℕ) (s : DispState) :
    (recoveryPhase c n s).ever_locked = s.ever_locked ∧
    (recoveryPhase c n s).tracking = s.tracking := by
  simp only [recoveryPhase]
  (repeat' split) <;> simp

theorem recoveryPhase_anchor (c : ℚ) (n : ℕ) (s : DispState) :
    (recoveryPhase c n s).anchor_bpm = s.anchor_bpm ∨
    (recoveryPhase c n s).anchor_bpm = none := by
  simp only [recoveryPhase]
  (repeat' split) <;> simp

theorem smoothPhase_frame (c d : ℚ) (n : ℕ) (s : DispState) :
    (smoothPhase c d n s).ever_locked = s.ever_locked ∧
    (smoothPhase c d n s).tracking = s.tracking ∧
    (smoothPhase c d n s).anchor_bpm = s.anchor_bpm := by
  simp only [smoothPhase]
  (repeat' split) <;> simp

theorem publishPhase_frame (c l d : ℚ) (f : Bool) (n : ℕ) (s : DispState)
    (slot : Option DisplayBpm) :
    (publishPhase c l d f n s slot).1.ever_locked = s.ever_locked ∧
    (publishPhase c l d f n s slot).1.tracking = s.tracking ∧
    (publishPhase c l d f n s slot).1.anchor_bpm = s.anchor_bpm := by
  simp only [publishPhase]
  (repeat' split) <;> simp

theorem anchorPhase_frame (c d : ℚ) (s : DispState) :
    (anchorPhase c d s).ever_locked = s.ever_locked ∧
    (anchorPhase c d s).tracking = s.tracking := by
  simp only [anchorPhase]
  (repeat' split) <;> simp

theorem scInitPhase_frame (ops : FloatOps) (s : DispState) :
    (scInitPhase ops s).ever_locked = s.ever_locked ∧
    (scInitPhase ops s).tracking = s.tracking ∧
    (scInitPhase ops s).anchor_bpm = s.anchor_bpm ∧
    (scInitPhase ops s).none_cnt = s.none_cnt ∧
    (scInitPhase ops s).hi_cnt = s.hi_cnt ∧
    (scInitPhase ops s).lo_cnt = s.lo_cnt := by
  simp only [scInitPhase]
  (repeat' split) <;> simp

theorem normPhase_frame (ops : FloatOps) (frames : List ℚ) (s : DispState) :
    (normPhase ops frames s).ever_locked = s.ever_locked ∧
    (normPhase ops frames s).tracking = s.tracking ∧
    (normPhase ops frames s).anchor_bpm = s.anchor_bpm ∧
    (normPhase ops frames s).none_cnt = s.none_cnt ∧
    (normPhase ops frames s).hi_cnt = s.hi_cnt ∧
    (normPhase ops frames s).lo_cnt = s.lo_cnt := by
  simp only [normPhase]
  simp

theorem trackStep_ever_mono (c : ℚ) (u : Bool) (s : DispState)
    (h : s.ever_locked = true) : (trackStep c u s).ever_locked = true := by
  simp only [trackStep]
  (repeat' split) <;> simp_all

theorem trackStep_ever_source (c : ℚ) (u : Bool) (s : DispState)
    (h : (trackStep c u s).ever_locked = true) :
    s.ever_locked = true ∨ ((trackStep c u s).tracking = true ∧ s.tracking = false) := by
  revert h
  simp only [trackStep]
  (repeat' split) <;> simp_all <;> (exfalso; linarith)

/-- The result of the `Some(raw)` branch has the `ever_locked` and
`tracking` flags computed by the hysteresis step; no later phase touches
them. -/
theorem hopSome_flags (ops : FloatOps) (raw : BpmEstimate) (now : ℕ) (level rms cur_db : ℚ)
    (s : DispState) (slot : Option DisplayBpm) :
    (hopSome ops raw now level rms cur_db s slot).1.ever_locked =
      (trackStep (adjConf ops raw.confidence rms (dbJumpPhase raw.from_short cur_db now s).noise_floor_rms)
        (raw.win_sec ≤ 0.1) (dbJumpPhase raw.from_short cur_db now s)).ever_locked ∧
    (hopSome ops raw now level rms cur_db s slot).1.tracking =
      (trackStep (adjConf ops raw.confidence rms (dbJumpPhase raw.from_short cur_db now s).noise_floor_rms)
        (raw.win_sec ≤ 0.1) (dbJumpPhase raw.from_short cur_db now s)).tracking := by
  unfold hopSome
  constructor
  · rw [(anchorPhase_frame _ _ _).1, (publishPhase_frame _ _ _ _ _ _ _).1,
        (smoothPhase_frame _ _ _ _).1, (recoveryPhase_frame _ _ _).1]
    simp only []
    rw [(lockPhase_frame _ _ _ _ _).1]
  · rw [(anchorPhase_frame _ _ _).2, (publishPhase_frame _ _ _ _ _ _ _).2.1,
        (smoothPhase_frame _ _ _ _).2.1, (recoveryPhase_frame _ _ _).2]
    simp only []
    rw [(lockPhase_frame _ _ _ _ _).2.1]

theorem scInitPhase_ever (ops : FloatOps) (s : DispState) :
    (scInitPhase ops s).ever_locked = s.ever_locked := (scInitPhase_frame ops s).1

theorem scInitPhase_tracking (ops : FloatOps) (s : DispState) :
    (scInitPhase ops s).tracking = s.tracking := (scInitPhase_frame ops s).2.1

theorem scInitPhase_none_cnt (ops : FloatOps) (s : DispState) :
    (scInitPhase ops s).none_cnt = s.none_cnt := (scInitPhase_frame ops s).2.2.2.1

theorem normPhase_ever (ops : FloatOps) (frames : List ℚ) (s : DispState) :
    (normPhase ops frames s).ever_locked = s.ever_locked := (normPhase_frame ops frames s).1

theorem normPhase_tracking (ops : FloatOps) (frames : List ℚ) (s : DispState) :
    (normPhase ops frames s).tracking = s.tracking := (normPhase_frame ops frames s).2.1

theorem normPhase_none_cnt (ops : FloatOps) (frames : List ℚ) (s : DispState) :
    (normPhase ops frames s).none_cnt = s.none_cnt := (normPhase_frame ops frames s).2.2.2.1

theorem dbJumpPhase_ever (fs : Bool) (db : ℚ) (now : ℕ) (s : DispState) :
    (dbJumpPhase fs db now s).ever_locked = s.ever_locked := (dbJumpPhase_frame fs db now s).1

theorem dbJumpPhase_tracking (fs : Bool) (db : ℚ) (now : ℕ) (s : DispState) :
    (dbJumpPhase fs db now s).tracking = s.tracking := (dbJumpPhase_frame fs db now s).2.1

theorem trackStep_entry_sets (c : ℚ) (u : Bool) (s : DispState)
    (h : (trackStep c u s).tracking = true) (h0 : s.tracking = false) :
    (trackStep c u s).ever_locked = true := by
  revert h
  simp only [trackStep]
  (repeat' split) <;> simp_all

/-! ## Claim C5: the "ever locked" flag -/

/-- The `ever_locked` flag after a non-silent hop with no estimate
(main.rs lines 886–916): cleared exactly when the 6th consecutive none is
reached. -/
theorem hopStep_none_ever (ops : FloatOps) (frames : List ℚ) (now : ℕ) (s : DispState)
    (slot : Option DisplayBpm) (hns : ¬ level_from_frames ops frames < 0.03) :
    (hopStep ops frames none now s slot).1.ever_locked =
      (if 6 ≤ s.none_cnt + 1 then false else s.ever_locked) := by
  simp only [hopStep]
  rw [if_neg hns]
  by_cases hn : 6 ≤ s.none_cnt + 1 <;>
    simp [hn, normPhase_none_cnt, normPhase_ever, scInitPhase_none_cnt, scInitPhase_ever]

/-- Amended claim C5: `ever_locked` is set exactly when `tracking` is first
entered and is preserved by estimate hops; but besides the full resets
(reset request and sample-rate change) it is also cleared by the no-data
timeout, by every silence hop, and upon 6 consecutive none hops — the code
clears it in all five situations. -/
theorem C5_ever_locked_lifecycle :
    (∀ s, (handleReset s).1.ever_locked = false) ∧
    (∀ ops sr s, (handleSrChange ops sr s).1.ever_locked = false) ∧
    (∀ s, (handleNoData s).1.ever_locked = false) ∧
    (∀ ops frames raw now s slot, level_from_frames ops frames < 0.03 →
        (hopStep ops frames raw now s slot).1.ever_locked = false) ∧
    (∀ ops frames now s slot, ¬ level_from_frames ops frames < 0.03 → 6 ≤ s.none_cnt + 1 →
        (hopStep ops frames none now s slot).1.ever_locked = false) ∧
    (∀ ops frames now s slot, ¬ level_from_frames ops frames < 0.03 → s.none_cnt + 1 < 6 →
        (hopStep ops frames none now s slot).1.ever_locked = s.ever_locked) ∧
    (∀ ops frames r now s slot, ¬ level_from_frames ops frames < 0.03 → s.ever_locked = true →
        (hopStep ops frames (some r) now s slot).1.ever_locked = true) ∧
    (∀ ops frames r now s slot, ¬ level_from_frames ops frames < 0.03 →
        (hopStep ops frames (some r) now s slot).1.ever_locked = true →
        s.ever_locked = true ∨
          ((hopStep ops frames (some r) now s slot).1.tracking = true ∧ s.tracking = false)) := by
  refine ⟨fun s => rfl, fun ops sr s => rfl, fun s => rfl, ?_, ?_, ?_, ?_, ?_⟩
  · intro ops frames raw now s slot h
    simp only [hopStep]
    rw [if_pos h]
  · intro ops frames now s slot hns hn
    rw [hopStep_none_ever ops frames now s slot hns, if_pos hn]
  · intro ops frames now s slot hns hn
    rw [hopStep_none_ever ops frames now s slot hns, if_neg (by omega)]
  · intro ops frames r now s slot hns hev
    simp only [hopStep]
    rw [if_neg hns]
    rw [(hopSome_flags _ _ _ _ _ _ _ _).1]
    apply trackStep_ever_mono
    rw [dbJumpPhase_ever]
    simp [normPhase_ever, scInitPhase_ever, hev]
  · intro ops frames r now s slot hns hev
    simp only [hopStep] at hev
    rw [if_neg hns] at hev
    rw [(hopSome_flags _ _ _ _ _ _ _ _).1] at hev
    have hsrc := trackStep_ever_source _ _ _ hev
    rw [dbJumpPhase_ever] at hsrc
    rcases hsrc with h1 | h2
    · left
      rw [normPhase_ever, scInitPhase_ever] at h1
      simpa using h1
    · right
      constructor
      · simp only [hopStep]
        rw [if_neg hns]
        rw [(hopSome_flags _ _ _ _ _ _ _ _).2]
        exact h2.1
      · rw [dbJumpPhase_tracking, normPhase_tracking, scInitPhase_tracking] at h2
        simpa using h2.2

/-- Counterexample to claim C5 as stated: with `ever_locked = true` and five
prior none hops, a sixth none hop (an ordinary non-silent hop with no
estimate — not a reset and not a sample-rate change) clears `ever_locked`. -/
theorem C5_counterexample :
    ({ baseDisp with ever_locked := true, tracking := true, none_cnt := 5 } : DispState).ever_locked = true ∧
    (hopStep dummyOps [1] none 1000
      { baseDisp with ever_locked := true, tracking := true, none_cnt := 5 }
      (some (DisplayBpm.mk 128 0.9 .tracking 1))).1.ever_locked = false := by
  constructor
  · rfl
  · rw [hopStep_none_ever]
    · norm_num [baseDisp]
    · norm_num [level_from_frames, dummyOps, sumsq, clampQ, max_def, min_def]

/-- Witness for the amended C5: a first none hop with `ever_locked` set
leaves the flag set (the preserved case), applied at a concrete state. -/
theorem C5_ever_locked_lifecycle_witness :
    (hopStep dummyOps [1] none 1000 { baseDisp with ever_locked := true }
      (some (DisplayBpm.mk 128 0.9 .tracking 1))).1.ever_locked =
      ({ baseDisp with ever_locked := true } : DispState).ever_locked :=
  C5_ever_locked_lifecycle.2.2.2.2.2.1 dummyOps [1] 1000
    { baseDisp with ever_locked := true } (some (DisplayBpm.mk 128 0.9 .tracking 1))
    (by norm_num [level_from_frames, dummyOps, sumsq, clampQ, max_def, min_def])
    (by norm_num [baseDisp])

/-! ## Claim C2: the anchor -/

/-- The anchor invariant: whenever the anchor holds a value, that value is in
`[60, 160]`. -/
def AnchorInv (s : DispState) : Prop :=
  ∀ v : ℚ, s.anchor_bpm = some v → 60 ≤ v ∧ v ≤ 160

theorem AnchorInv_of_eq {a b : DispState} (he : a.anchor_bpm = b.anchor_bpm)
    (h : AnchorInv b) : AnchorInv a := fun v hv => h v (he ▸ hv)

theorem AnchorInv_none {a : DispState} (he : a.anchor_bpm = none) : AnchorInv a := by
  intro v hv
  rw [he] at hv
  cases hv

theorem AnchorInv_or {a b : DispState}
    (hor : a.anchor_bpm = b.anchor_bpm ∨ a.anchor_bpm = none) (h : AnchorInv b) :
    AnchorInv a := by
  rcases hor with h1 | h1
  · exact AnchorInv_of_eq h1 h
  · exact AnchorInv_none h1

theorem anchorPhase_inv (c d : ℚ) (s : DispState) (h : AnchorInv s) :
    AnchorInv (anchorPhase c d s) := by
  intro v hv
  simp only [anchorPhase] at hv
  split at hv
  · split at hv
    · rename_i base heq
      split at hv
      · rename_i hg
        simp only [Option.some.injEq] at hv
        have hb := h base heq
        subst hv
        constructor <;> nlinarith [hb.1, hb.2, hg.2.1, hg.2.2]
      · exact h v hv
    · rename_i heq
      split at hv
      · rename_i hg
        simp only [Option.some.injEq] at hv
        subst hv
        exact ⟨hg.1, hg.2⟩
      · exact h v hv
  · exact h v hv

/-- The anchor-update phase writes only while tracking with confidence at
least 0.85, and the written value lies in `[60, 160]`. -/
theorem anchorPhase_writes (c d : ℚ) (s : DispState) (hInv : AnchorInv s)
    (hchg : (anchorPhase c d s).anchor_bpm ≠ s.anchor_bpm) :
    s.tracking = true ∧ 0.85 ≤ c ∧
    ∃ v, (anchorPhase c d s).anchor_bpm = some v ∧ 60 ≤ v ∧ v ≤ 160 := by
  by_cases hcond : (s.tracking = true ∧ c ≥ 0.85)
  case neg =>
    exfalso
    apply hchg
    simp only [anchorPhase]
    rw [if_neg hcond]
  case pos =>
    refine ⟨hcond.1, hcond.2, ?_⟩
    rcases ha : s.anchor_bpm with _ | base
    · by_cases hg : (60 ≤ d ∧ d ≤ 160)
      · refine ⟨d, ?_, hg.1, hg.2⟩
        simp only [anchorPhase]
        rw [if_pos hcond]
        split
        · rename_i b heq
          rw [ha] at heq
          exact absurd heq (by simp)
        · rw [if_pos hg]
      · exfalso
        apply hchg
        simp only [anchorPhase]
        rw [if_pos hcond]
        split
        · rename_i b heq
          rw [ha] at heq
          exact absurd heq (by simp)
        · rw [if_neg hg]
    · by_cases hg : (|d - base| / max base (1/10^6) ≤ 0.08 ∧ 60 ≤ d ∧ d ≤ 160)
      · have hb := hInv base ha
        refine ⟨base * 0.85 + d * 0.15, ?_, ?_, ?_⟩
        · simp only [anchorPhase]
          rw [if_pos hcond]
          split
          · rename_i b heq
            rw [ha] at heq
            injection heq with hbe
            subst hbe
            rw [if_pos hg]
          · rename_i heq
            rw [ha] at heq
            exact absurd heq (by simp)
        · nlinarith [hb.1, hb.2, hg.2.1, hg.2.2]
        · nlinarith [hb.1, hb.2, hg.2.1, hg.2.2]
      · exfalso
        apply hchg
        simp only [anchorPhase]
        rw [if_pos hcond]
        split
        · rename_i b heq
          rw [ha] at heq
          injection heq with hbe
          subst hbe
          rw [if_neg hg]
        · rename_i heq
          rw [ha] at heq
          exact absurd heq (by simp)

theorem dbJumpPhase_clears (fs : Bool) (db : ℚ) (now : ℕ) (s : DispState) (pdb : ℚ)
    (hp : s.prev_rms_db = some pdb) (hjump : |db - pdb| ≥ 6) :
    (dbJumpPhase fs db now s).anchor_bpm = none := by
  simp only [dbJumpPhase]
  simp only [hp]
  rw [if_pos hjump]

theorem recoveryPhase_clears (c : ℚ) (now : ℕ) (s : DispState)
    (h : (s.recent_none_flag = true ∧ 0.50 ≤ c) ∨ 2 ≤ s.dev_from_lock_cnt) :
    (recoveryPhase c now s).anchor_bpm = none := by
  simp only [recoveryPhase]
  (repeat' split) <;> simp_all

theorem hopSome_anchorInv (ops : FloatOps) (raw : BpmEstimate) (now : ℕ)
    (level rms cur_db : ℚ) (s : DispState) (slot : Option DisplayBpm) (h : AnchorInv s) :
    AnchorInv (hopSome ops raw now level rms cur_db s slot).1 := by
  simp only [hopSome]
  apply anchorPhase_inv
  apply AnchorInv_of_eq (publishPhase_frame _ _ _ _ _ _ _).2.2
  apply AnchorInv_of_eq (smoothPhase_frame _ _ _ _).2.2
  apply AnchorInv_or (recoveryPhase_anchor _ _ _)
  apply AnchorInv_of_eq (rfl :
    ({ (lockPhase _ _ _ _ _).1 with recent_ints_cand := _ } : DispState).anchor_bpm =
      (lockPhase _ _ _ _ _).1.anchor_bpm)
  apply AnchorInv_of_eq (lockPhase_frame _ _ _ _ _).2.2
  apply AnchorInv_of_eq (trackStep_frame _ _ _).1
  apply AnchorInv_or (dbJumpPhase_anchor _ _ _ _)
  exact h

theorem scInitPhase_anchor (ops : FloatOps) (s : DispState) :
    (scInitPhase ops s).anchor_bpm = s.anchor_bpm := (scInitPhase_frame ops s).2.2.1

theorem normPhase_anchor (ops : FloatOps) (frames : List ℚ) (s : DispState) :
    (normPhase ops frames s).anchor_bpm = s.anchor_bpm := (normPhase_frame ops frames s).2.2.1

theorem step_anchorInv (ops : FloatOps) (ev : CapEvent) (s : DispState)
    (slot : Option DisplayBpm) (h : AnchorInv s) : AnchorInv (step ops ev s slot).1 := by
  cases ev with
  | reset => exact AnchorInv_none rfl
  | srChange sr => exact AnchorInv_none rfl
  | noData => exact AnchorInv_of_eq rfl h
  | hop frames raw now =>
    simp only [step, hopStep]
    split
    · intro v hv
      have hv2 : (scInitPhase ops s).anchor_bpm = some v := hv
      exact h v ((scInitPhase_anchor ops s).symm.trans hv2)
    · cases raw with
      | some r =>
        apply hopSome_anchorInv
        intro v hv
        have hv1 : (normPhase ops frames _).anchor_bpm = some v := hv
        rw [normPhase_anchor] at hv1
        have hv2 : (scInitPhase ops s).anchor_bpm = some v := hv1
        exact h v ((scInitPhase_anchor ops s).symm.trans hv2)
      | none =>
        intro v hv
        split at hv
        · rename_i r heq
          exact absurd heq (by simp)
        · split at hv <;> split at hv <;>
          · have hv1 : (normPhase ops frames _).anchor_bpm = some v := hv
            rw [normPhase_anchor] at hv1
            have hv2 : (scInitPhase ops s).anchor_bpm = some v := hv1
            exact h v ((scInitPhase_anchor ops s).symm.trans hv2)

/-- Claim C2: the anchor is cleared by both full resets (reset request and
sample-rate change) and by each of the three fast-relock triggers (a ≥ 6 dB
RMS jump, recovery from a none run with confidence ≥ 0.50, and two hops of
lock deviation); a `Some` value is assigned only by the anchor-update phase,
which runs only while tracking with confidence ≥ 0.85 and writes a value in
`[60, 160]`; and every loop reaction preserves the `[60, 160]` anchor
invariant. -/
theorem C2_anchor_guardrails :
    (∀ s, (handleReset s).1.anchor_bpm = none) ∧
    (∀ ops sr s, (handleSrChange ops sr s).1.anchor_bpm = none) ∧
    (∀ fs db now s pdb, s.prev_rms_db = some pdb → |db - pdb| ≥ 6 →
        (dbJumpPhase fs db now s).anchor_bpm = none) ∧
    (∀ c now s, (s.recent_none_flag = true ∧ 0.50 ≤ c) ∨ 2 ≤ s.dev_from_lock_cnt →
        (recoveryPhase c now s).anchor_bpm = none) ∧
    (∀ c d s, AnchorInv s → (anchorPhase c d s).anchor_bpm ≠ s.anchor_bpm →
        s.tracking = true ∧ 0.85 ≤ c ∧
        ∃ v, (anchorPhase c d s).anchor_bpm = some v ∧ 60 ≤ v ∧ v ≤ 160) ∧
    (∀ ops ev s slot, AnchorInv s → AnchorInv (step ops ev s slot).1) :=
  ⟨fun _ => rfl, fun _ _ _ => rfl, dbJumpPhase_clears, recoveryPhase_clears,
   anchorPhase_writes, step_anchorInv⟩

/-! ## Claim C6: tracking hysteresis and the reported state -/

/-- One non-ultra-short hysteresis step at high adjusted confidence:
the high counter advances, the low counter resets, and tracking is entered
exactly when the advanced high counter reaches 3. -/
theorem trackStep_high_step (c : ℚ) (s : DispState) (hc : 0.40 < c) :
    (trackStep c false s).tracking = (s.tracking || decide (3 ≤ s.hi_cnt + 1)) ∧
    (trackStep c false s).ever_locked =
      (s.ever_locked || (!s.tracking && decide (3 ≤ s.hi_cnt + 1))) ∧
    (trackStep c false s).hi_cnt = s.hi_cnt + 1 := by
  simp only [trackStep, Bool.false_eq_true, if_false]
  rw [if_pos (le_of_lt hc), if_neg (by linarith : ¬ c ≤ 0.25)]
  by_cases ht : s.tracking = true <;> by_cases h3 : 3 ≤ s.hi_cnt + 1 <;>
    simp [ht, h3]

/-- One non-ultra-short hysteresis step at low adjusted confidence:
the low counter advances, the high counter resets, and tracking is dropped
exactly when the advanced low counter reaches 2. -/
theorem trackStep_low_step (c : ℚ) (s : DispState) (hc : c < 0.25) :
    (trackStep c false s).tracking = (s.tracking && !(decide (2 ≤ s.lo_cnt + 1))) ∧
    (trackStep c false s).lo_cnt = s.lo_cnt + 1 := by
  simp only [trackStep, Bool.false_eq_true, if_false]
  rw [if_neg (by linarith : ¬ 0.40 ≤ c), if_pos (le_of_lt hc)]
  by_cases ht : s.tracking = true <;> by_cases h2 : 2 ≤ s.lo_cnt + 1 <;>
    simp [ht, h2]

/-- The hysteresis step preserves "tracking implies ever-locked". -/
theorem trackStep_inv (c : ℚ) (u : Bool) (s : DispState)
    (h : s.tracking = true → s.ever_locked = true) :
    (trackStep c u s).tracking = true → (trackStep c u s).ever_locked = true := by
  simp only [trackStep]
  (repeat' split) <;> simp_all

theorem showStateOf_cases (a f : Bool) (di : ℤ) (s : DispState) (slot : Option DisplayBpm) :
    showStateOf a f di s slot = stateOf s ∨ showStateOf a f di s slot = .uncertain ∨
    showStateOf a f di s slot = s.last_hard_state.getD .tracking := by
  simp only [showStateOf]
  (repeat' split) <;> simp

theorem payloadOf_state (conf level disp : ℚ) (ss : BpState) (di : ℤ) (f : Bool)
    (now : ℕ) (s : DispState) (slot : Option DisplayBpm) :
    (payloadOf conf level disp ss di f now s slot).state = ss ∨
    (payloadOf conf level disp ss di f now s slot).state = .uncertain := by
  simp only [payloadOf]
  (repeat' split) <;> simp

/-- Every payload the publish block writes carries either the per-hop base
state, `uncertain` (soft admission or majority override), or the remembered
last hard state. -/
theorem publishPhase_state (conf level disp0 : ℚ) (in_fast : Bool) (now : ℕ)
    (s : DispState) (slot : Option DisplayBpm) (p : DisplayBpm)
    (h : (publishPhase conf level disp0 in_fast now s slot).2.2 = some p) :
    p.state = stateOf s ∨ p.state = .uncertain ∨
    p.state = s.last_hard_state.getD .tracking := by
  simp only [publishPhase] at h
  split at h
  · simp only [Option.some.injEq] at h
    subst h
    rcases payloadOf_state conf level (hardGate conf disp0 s slot).2
      (showStateOf (softGate conf (hardGate conf disp0 s slot).2
        (hardRange conf (hardGate conf disp0 s slot).2 (hardGate conf disp0 s slot).1 s slot)
        in_fast now s) in_fast (roundRust (hardGate conf disp0 s slot).2) s slot)
      (roundRust (hardGate conf disp0 s slot).2) in_fast now s slot with h1 | h1
    · rw [h1]
      exact showStateOf_cases _ _ _ _ _
    · exact Or.inr (Or.inl h1)
  · simp at h

/-- Amended claim C6: for non-ultra-short windows, three consecutive hops
with adjusted confidence above 0.40 leave tracking on with `ever_locked`
set, and two consecutive hops with adjusted confidence below 0.25 leave
tracking off; the per-hop base state follows the
tracking / ever-locked / analyzing rule; but a published payload carries
that base state only on the hard path — soft admissions and the majority
override report `uncertain` (or the remembered last hard state), even while
`tracking` is true. -/
theorem C6_tracking_hysteresis :
    (∀ (s : DispState) (c1 c2 c3 : ℚ), (s.tracking = true → s.ever_locked = true) →
        0.40 < c1 → 0.40 < c2 → 0.40 < c3 →
        (trackStep c3 false (trackStep c2 false (trackStep c1 false s))).tracking = true ∧
        (trackStep c3 false (trackStep c2 false (trackStep c1 false s))).ever_locked = true) ∧
    (∀ (s : DispState) (c1 c2 : ℚ), c1 < 0.25 → c2 < 0.25 →
        (trackStep c2 false (trackStep c1 false s)).tracking = false) ∧
    (∀ s : DispState, stateOf s =
        (if s.tracking then BpState.tracking
         else if s.ever_locked then BpState.uncertain else BpState.analyzing)) ∧
    (∀ (conf level disp0 : ℚ) (in_fast : Bool) (now : ℕ) (s : DispState)
        (slot : Option DisplayBpm) (p : DisplayBpm),
        (publishPhase conf level disp0 in_fast now s slot).2.2 = some p →
        p.state = stateOf s ∨ p.state = .uncertain ∨
        p.state = s.last_hard_state.getD .tracking) := by
  refine ⟨?_, ?_, fun s => rfl, publishPhase_state⟩
  · intro s c1 c2 c3 hinv hc1 hc2 hc3
    have h1 := trackStep_high_step c1 s hc1
    have h2 := trackStep_high_step c2 (trackStep c1 false s) hc2
    have h3 := trackStep_high_step c3 (trackStep c2 false (trackStep c1 false s)) hc3
    have i3 : (trackStep c3 false (trackStep c2 false (trackStep c1 false s))).tracking = true →
        (trackStep c3 false (trackStep c2 false (trackStep c1 false s))).ever_locked = true :=
      trackStep_inv _ _ _ (trackStep_inv _ _ _ (trackStep_inv _ _ _ hinv))
    have hhi : (trackStep c2 false (trackStep c1 false s)).hi_cnt = s.hi_cnt + 2 := by
      rw [h2.2.2, h1.2.2]
    have ht : (trackStep c3 false (trackStep c2 false (trackStep c1 false s))).tracking = true := by
      rw [h3.1, hhi]
      have : decide (3 ≤ s.hi_cnt + 2 + 1) = true := decide_eq_true (by omega)
      rw [this]
      simp
    exact ⟨ht, i3 ht⟩
  · intro s c1 c2 hc1 hc2
    have h1 := trackStep_low_step c1 s hc1
    have h2 := trackStep_low_step c2 (trackStep c1 false s) hc2
    rw [h2.1, h1.2]
    have : decide (2 ≤ s.lo_cnt + 1 + 1) = true := decide_eq_true (by omega)
    rw [this]
    simp

/-- A concrete stabilizer state for exercising the soft publish gate:
tracking with three recent stable values at 128. -/
def softDisp : DispState :=
  { baseDisp with tracking := true, ever_locked := true, noise_floor_rms := 1/10,
                  stable_vals := [(128, 1700), (128, 1800), (128, 1900)],
                  ema_disp := some 128, trk_x := some 128 }

/-- Counterexample to claim C6 as stated: on a hop whose adjusted confidence
is 0.69 (below the hard gate but above the soft threshold), with tracking
still on, the soft gate admits the value but the published state is
`uncertain`, not `tracking` — the reported state does not follow the
tracking / ever-locked / analyzing rule. -/
theorem C6_counterexample :
    (hopStep dummyOps [1] (some ⟨128, 0.6, 1, false, 2⟩) 2000 softDisp
      (some ⟨128, 0.8, .tracking, 1⟩)).1.tracking = true ∧
    (hopStep dummyOps [1] (some ⟨128, 0.6, 1, false, 2⟩) 2000 softDisp
      (some ⟨128, 0.8, .tracking, 1⟩)).2 =
      some ⟨128, 0.69, .uncertain, 1⟩ := by
  norm_num [hopStep, scInitPhase, level_from_frames, sumsq, clampQ, normPhase, hopSome,
    dbJumpPhase, adjConf, trackStep, inFastOf, harmonicCorrect, edmNorm, octLoop,
    lockPhase, lockTTL, lockForceClear, lockBigDev, roundRust, pruneFront, recoveryPhase,
    smoothPhase, sortQ, List.insertionSort, List.orderedInsert, publishPhase, hardGate,
    baseForGuard, hardRange, softGate, majorGate, showStateOf, payloadOf, modeOf,
    recentVals, tally, anchorPhase, dummyOps, baseDisp, softDisp, max_def, min_def,
    stateOf]

/-- Witness for the amended C6: three concrete high-confidence hops from the
initial state enter tracking and set `ever_locked`. -/
theorem C6_tracking_hysteresis_witness :
    (trackStep 0.5 false (trackStep 0.5 false (trackStep 0.5 false baseDisp))).tracking = true ∧
    (trackStep 0.5 false (trackStep 0.5 false (trackStep 0.5 false baseDisp))).ever_locked = true :=
  C6_tracking_hysteresis.1 baseDisp 0.5 0.5 0.5 (by norm_num [baseDisp])
    (by norm_num) (by norm_num) (by norm_num)

/-- Witness for C2: at a concrete tracking state with no anchor and
confidence 0.9, the anchor phase initialises the anchor to the in-range
display value 120. -/
theorem C2_anchor_guardrails_witness :
    ({ baseDisp with tracking := true } : DispState).tracking = true ∧ (0.85 : ℚ) ≤ 0.9 ∧
    ∃ v, (anchorPhase 0.9 120 { baseDisp with tracking := true }).anchor_bpm = some v ∧
      60 ≤ v ∧ v ≤ 160 :=
  C2_anchor_guardrails.2.2.2.2.1 0.9 120 { baseDisp with tracking := true }
    (AnchorInv_none rfl)
    (by norm_num [anchorPhase, baseDisp]; simp)

/-! ## Claim C7: the estimator's silence and length gates -/

/-- Claim C7: after the input-jump reset and envelope preprocessing, if the
down-sampled envelope buffer holds fewer than `ds_rate` samples (one
second), or its RMS is below `4·10⁻⁴`, then `push_frames` returns no
estimate. -/
theorem C7_estimator_gate (ops : FloatOps) (s : EstState) (frames : List ℚ) :
    (let s1 := inputJumpReset ops s frames
     let decim := (max (roundRust (s1.sample_rate / s1.ds_rate)) 1).toNat
     let s2 := preprocessEnv s1 decim frames
     s2.buf.length < toUsize s2.ds_rate * 1 ∨ bufRms ops s2.buf < 4/10^4) →
    (push_frames ops s frames).2 = none := by
  intro h
  simp only [] at h
  simp only [push_frames]
  split
  · rfl
  · split
    · rfl
    · split
      · rfl
      · rename_i hlen hrms
        rcases h with h1 | h1
        · exact absurd h1 hlen
        · exact absurd h1 hrms

/-- Witness for C7: on the freshly constructed estimator state with no
frames, the envelope buffer is empty, so no estimate is produced. -/
theorem C7_estimator_gate_witness : (push_frames dummyOps baseEst []).2 = none :=
  C7_estimator_gate dummyOps baseEst []
    (Or.inl (by norm_num [inputJumpReset, preprocessEnv, envLoop, keepLast, toUsize,
      roundRust, baseEst, List.enum]))

/-! ## Claim C4: the score-to-confidence formula and its rejections -/

/-- Counterexample to claim C4 as stated: the claim's confidence formula
omits the clamp of `best_score · sqrt(ratio)` to `[0, 0.95]` that the code
applies before raising to the 0.85 power (bpm.rs line 291).  At
`best = 0.6, mean = 0.15` the ratio is 4, `0.6 · sqrt 4 = 1.2` exceeds
0.95, and the returned confidence is built from the clamped 0.95, not from
1.2, so the claimed equality fails. -/
theorem C4_counterexample :
    ¬ (∀ (ops : FloatOps) (minLag bestLag : ℕ) (best second sum : ℚ) (cnt : ℕ)
        (harm : ℚ) (pc : ℕ) (cv : ℚ) (p : ℚ × ℚ),
        second ≤ best → sum / (cnt : ℚ) ≤ best → 0 ≤ best → best ≤ 1 →
        (harm = 0.90 ∨ harm = 1) → 0 ≤ cv → cv ≤ 2 → 2 ≤ pc →
        scoreTail ops minLag bestLag best second sum cnt harm pc cv = some p →
        p.1 = ops.powf (best * ops.sqrt (best / (sum / (cnt : ℚ)))) (17/20) * harm *
          (0.5 + 0.5 * clampQ ((pc : ℚ) / 8) 0.3 1 * clampQ (1 - cv) 0.4 1)) := by
  intro hclaim
  have := hclaim dummyOps 67 100 0.6 0.5 9.9 66 1 8 0 (19/20, 3/20)
    (by norm_num) (by norm_num) (by norm_num) (by norm_num) (Or.inr rfl)
    (by norm_num) (by norm_num) (by norm_num)
    (by norm_num [scoreTail, dummyOps, clampQ, max_def, min_def])
  norm_num [dummyOps, clampQ, max_def, min_def] at this

/-- Amended claim C4: the confidence returned for a slice that passes all
rejection gates equals
`(clamp(best·sqrt(ratio), 0, 0.95))^0.85 · harm_penalty ·
(0.5 + 0.5·peak_count_factor·stability_factor)` with
`ratio = max(best / max(mean_score, 1e-9), 1)`; and the slice is rejected
whenever `best_score < 0.08`, `margin < 0.010`, or that confidence is below
0.05. -/
theorem C4_confidence_formula (ops : FloatOps) (minLag bestLag : ℕ)
    (best second sum : ℚ) (cnt : ℕ) (harm : ℚ) (pc : ℕ) (cv : ℚ) :
    (∀ p : ℚ × ℚ, scoreTail ops minLag bestLag best second sum cnt harm pc cv = some p →
      p.1 = ops.powf (clampQ (best * ops.sqrt (max (best / max (sum / (cnt : ℚ)) (1/10^9)) 1))
          0 0.95) (17/20) * harm *
          (0.5 + 0.5 * clampQ ((pc : ℚ) / 8) 0.3 1 * clampQ (1 - cv) 0.4 1) ∧
      p.2 = max (sum / (cnt : ℚ)) (1/10^9)) ∧
    (best < 0.08 → scoreTail ops minLag bestLag best second sum cnt harm pc cv = none) ∧
    (max (best - second) 0 < 0.010 →
      scoreTail ops minLag bestLag best second sum cnt harm pc cv = none) ∧
    (ops.powf (clampQ (best * ops.sqrt (max (best / max (sum / (cnt : ℚ)) (1/10^9)) 1))
          0 0.95) (17/20) * harm *
          (0.5 + 0.5 * clampQ ((pc : ℚ) / 8) 0.3 1 * clampQ (1 - cv) 0.4 1) < 0.05 →
      scoreTail ops minLag bestLag best second sum cnt harm pc cv = none) := by
  refine ⟨?_, ?_, ?_, ?_⟩
  · intro p hp
    simp only [scoreTail] at hp
    split at hp
    · cases hp
    · split at hp
      · cases hp
      · split at hp
        · cases hp
        · split at hp
          · cases hp
          · simp only [Option.some.injEq] at hp
            subst hp
            exact ⟨rfl, rfl⟩
  · intro h
    simp only [scoreTail]
    (repeat' split) <;> first | rfl | exact absurd h (by assumption)
  · intro h
    simp only [scoreTail]
    (repeat' split) <;> first | rfl | exact absurd h (by assumption)
  · intro h
    simp only [scoreTail]
    (repeat' split) <;> first | rfl | exact absurd h (by assumption)

/-- Witness for the amended C4, at the same concrete slice statistics as the
counterexample: the returned confidence is the clamped formula value. -/
theorem C4_confidence_formula_witness :
    (((19/20 : ℚ), (3/20 : ℚ)) : ℚ × ℚ).1 =
      dummyOps.powf (clampQ (0.6 * dummyOps.sqrt
          (max (0.6 / max ((9.9 : ℚ) / ((66 : ℕ) : ℚ)) (1/10^9)) 1)) 0 0.95) (17/20) * 1 *
        (0.5 + 0.5 * clampQ (((8 : ℕ) : ℚ) / 8) 0.3 1 * clampQ (1 - 0) 0.4 1) ∧
    (((19/20 : ℚ), (3/20 : ℚ)) : ℚ × ℚ).2 = max ((9.9 : ℚ) / ((66 : ℕ) : ℚ)) (1/10^9) :=
  (C4_confidence_formula dummyOps 67 100 0.6 0.5 9.9 66 1 8 0).1 (19/20, 3/20)
    (by norm_num [scoreTail, dummyOps, clampQ, max_def, min_def])

/-! ## Claim C8: bounds on the raw tempo estimate -/

/-- One scan step either installs the current lag as best lag or leaves the
best lag unchanged. -/
theorem scanUpdate_bestLag (ops : FloatOps) (ds : ℚ) (xw : List ℚ) (lag : ℕ)
    (st : ScanSt) :
    (scanUpdate ops ds xw lag st).bestLag = lag ∨
    (scanUpdate ops ds xw lag st).bestLag = st.bestLag := by
  simp only [scanUpdate]
  split
  · exact Or.inl rfl
  · split
    · exact Or.inr rfl
    · exact Or.inr rfl

/-- The lag scan only ever reports a best lag of 0 (no winner) or a lag
inside the scanned range `[lo, maxLag]`. -/
theorem scanLags_bestLag_range (ops : FloatOps) (ds : ℚ) (xw : List ℚ)
    (maxLag lo n : ℕ) :
    ∀ (lag : ℕ) (st : ScanSt), maxLag + 1 - lag ≤ n → lo ≤ lag →
    (st.bestLag = 0 ∨ (lo ≤ st.bestLag ∧ st.bestLag ≤ maxLag)) →
    ((scanLags ops ds xw maxLag lag st).bestLag = 0 ∨
      (lo ≤ (scanLags ops ds xw maxLag lag st).bestLag ∧
       (scanLags ops ds xw maxLag lag st).bestLag ≤ maxLag)) := by
  induction n with
  | zero =>
    intro lag st hn hlo hst
    rw [scanLags]
    rw [dif_pos (by omega : maxLag < lag)]
    exact hst
  | succ m ih =>
    intro lag st hn hlo hst
    rw [scanLags]
    by_cases hgt : maxLag < lag
    · rw [dif_pos hgt]
      exact hst
    · rw [dif_neg hgt]
      by_cases hlen : xw.length ≤ lag
      · rw [if_pos hlen]
        exact hst
      · rw [if_neg hlen]
        refine ih (lag + 1) (scanUpdate ops ds xw lag st) (by omega) (by omega) ?_
        rcases scanUpdate_bestLag ops ds xw lag st with he | he
        · right
          rw [he]
          omega
        · rw [he]
          exact hst

/-- Any confidence produced by the score-to-confidence tail lies in [0, 1],
given that the abstract `powf` maps [0, 1] into [0, 1] at exponent 0.85 and
the harmonic penalty is 0.90 or 1. -/
theorem scoreTail_conf_bounds (ops : FloatOps) (hp : PowfBounded ops.powf)
    (minLag bestLag : ℕ) (best second sum : ℚ) (cnt : ℕ) (harm : ℚ) (pc : ℕ) (cv : ℚ)
    (p : ℚ × ℚ)
    (hsome : scoreTail ops minLag bestLag best second sum cnt harm pc cv = some p)
    (hh : harm = 0.90 ∨ harm = 1) :
    0 ≤ p.1 ∧ p.1 ≤ 1 := by
  simp only [scoreTail] at hsome
  split at hsome
  · cases hsome
  · split at hsome
    · cases hsome
    · split at hsome
      · cases hsome
      · split at hsome
        · cases hsome
        · rename_i hc5
          simp only [Option.some.injEq] at hsome
          subst hsome
          have hA := hp
            (clampQ (best * ops.sqrt (max (best / max (sum / (cnt : ℚ)) (1/10^9)) 1)) 0 0.95)
            (clampQ_ge_left _ (by norm_num)) (le_trans (clampQ_le_right _) (by norm_num))
          have hcf := clampQ_mem ((pc : ℚ) / 8) (show (0.3 : ℚ) ≤ 1 by norm_num)
          have hsf := clampQ_mem (1 - cv) (show (0.4 : ℚ) ≤ 1 by norm_num)
          have hh0 : 0 ≤ harm := by rcases hh with rfl | rfl <;> norm_num
          have hh1 : harm ≤ 1 := by rcases hh with rfl | rfl <;> norm_num
          have hAH1 : ops.powf
              (clampQ (best * ops.sqrt (max (best / max (sum / (cnt : ℚ)) (1/10^9)) 1)) 0 0.95)
              (17/20) * harm ≤ 1 := by
            nlinarith [hA.1, hA.2]
          have hAH0 : 0 ≤ ops.powf
              (clampQ (best * ops.sqrt (max (best / max (sum / (cnt : ℚ)) (1/10^9)) 1)) 0 0.95)
              (17/20) * harm := mul_nonneg hA.1 hh0
          have hM0 : (0 : ℚ) ≤ 0.5 + 0.5 * clampQ ((pc : ℚ) / 8) 0.3 1 * clampQ (1 - cv) 0.4 1 := by
            nlinarith [hcf.1, hcf.2, hsf.1, hsf.2]
          have hM1 : 0.5 + 0.5 * clampQ ((pc : ℚ) / 8) 0.3 1 * clampQ (1 - cv) 0.4 1 ≤ 1 := by
            nlinarith [hcf.1, hcf.2, hsf.1, hsf.2]
          have hfin : ops.powf
              (clampQ (best * ops.sqrt (max (best / max (sum / (cnt : ℚ)) (1/10^9)) 1)) 0 0.95)
              (17/20) * harm *
              (0.5 + 0.5 * clampQ ((pc : ℚ) / 8) 0.3 1 * clampQ (1 - cv) 0.4 1) ≤ 1 := by
            nlinarith [hAH0, hAH1, hM0, hM1]
          exact ⟨le_trans (by norm_num : (0 : ℚ) ≤ 0.05) (not_lt.mp hc5), hfin⟩

/-- `60·200 / L` lies in [90, 181] for every lag `L` in [66.5, 132.5]. -/
theorem bpm_div_bounds (L : ℚ) (h1 : 133/2 ≤ L) (h2 : L ≤ 265/2) :
    90 ≤ 60 * 200 / L ∧ 60 * 200 / L ≤ 181 := by
  have hL : 0 < L := by linarith
  constructor
  · rw [le_div_iff₀ hL]
    linarith
  · rw [div_le_iff₀ hL]
    linarith

/-- The parabolic refinement of a best lag in [67, 132] (with the ±0.5 clamp
on the sub-sample offset) keeps the implied BPM in [90, 181]. -/
theorem bpmRefine_bounds (L : ℕ) (a b c : ℚ) (hL1 : 67 ≤ L) (hL2 : L ≤ 132) :
    90 ≤ (if 67 < L ∧ L < 132 then
            if |a - 2 * b + c| > 1/10^6 then
              60 * 200 / ((L : ℚ) + clampQ ((1/2) * (a - c) / (a - 2 * b + c)) (-(1/2)) (1/2))
            else 60 * 200 / (L : ℚ)
          else 60 * 200 / (L : ℚ)) ∧
    (if 67 < L ∧ L < 132 then
        if |a - 2 * b + c| > 1/10^6 then
          60 * 200 / ((L : ℚ) + clampQ ((1/2) * (a - c) / (a - 2 * b + c)) (-(1/2)) (1/2))
        else 60 * 200 / (L : ℚ)
      else 60 * 200 / (L : ℚ)) ≤ 181 := by
  have hc1 : (67 : ℚ) ≤ (L : ℚ) := by exact_mod_cast hL1
  have hc2 : ((L : ℚ)) ≤ 132 := by exact_mod_cast hL2
  have hbase := bpm_div_bounds (L : ℚ) (by linarith) (by linarith)
  by_cases hrange : 67 < L ∧ L < 132
  · rw [if_pos hrange]
    by_cases hden : |a - 2 * b + c| > 1/10^6
    · rw [if_pos hden]
      have hd := clampQ_mem ((1/2) * (a - c) / (a - 2 * b + c))
        (show -(1/2 : ℚ) ≤ 1/2 by norm_num)
      have h68 : (68 : ℚ) ≤ (L : ℚ) := by exact_mod_cast (show 68 ≤ L by omega)
      have h131 : ((L : ℚ)) ≤ 131 := by exact_mod_cast (show L ≤ 131 by omega)
      exact bpm_div_bounds
        ((L : ℚ) + clampQ ((1/2) * (a - c) / (a - 2 * b + c)) (-(1/2)) (1/2))
        (by linarith [hd.1]) (by linarith [hd.2])
    · rw [if_neg hden]
      exact hbase
  · rw [if_neg hrange]
    exact hbase

/-- The IOI-median fusion (applied only when the IOI-implied BPM is within
0.8 % of a base BPM in [90, 181]) keeps the result in [60, 200]. -/
theorem ioiFuse_bounds (pl : ℕ) (b m : ℚ) (hb1 : 90 ≤ b) (hb2 : b ≤ 181) :
    60 ≤ (if pl ≥ 3 then
            if |m - b| / max b (1/10^6) ≤ 0.008 then (b * 2 + m) / 3 else b
          else b) ∧
    (if pl ≥ 3 then
        if |m - b| / max b (1/10^6) ≤ 0.008 then (b * 2 + m) / 3 else b
      else b) ≤ 200 := by
  have hb0 : (0 : ℚ) < b := by linarith
  have hmax : max b (1/10^6) = b := max_eq_left (by linarith)
  by_cases h3 : pl ≥ 3
  · rw [if_pos h3]
    by_cases hrel : |m - b| / max b (1/10^6) ≤ 0.008
    · rw [if_pos hrel]
      rw [hmax] at hrel
      have habs := abs_le.mp ((div_le_iff₀ hb0).mp hrel)
      constructor
      · rw [le_div_iff₀ (by norm_num : (0 : ℚ) < 3)]
        linarith [habs.1]
      · rw [div_le_iff₀ (by norm_num : (0 : ℚ) < 3)]
        linarith [habs.2]
    · rw [if_neg hrel]
      exact ⟨by linarith, by linarith⟩
  · rw [if_neg h3]
    exact ⟨by linarith, by linarith⟩

/-- Any slice result produced by the autocorrelation tail (at the concrete
down-sample rate 200 and lag range [67, 132]) has BPM in [60, 200] and
confidence in [0, 1]. -/
theorem sliceFinish_bounds (ops : FloatOps) (hp : PowfBounded ops.powf)
    (xw : List ℚ) (peaks : List ℕ) (cv : ℚ) (out : SliceOut)
    (h : sliceFinish ops 200 67 132 xw peaks cv = some out) :
    60 ≤ out.bpm ∧ out.bpm ≤ 200 ∧ 0 ≤ out.conf ∧ out.conf ≤ 1 := by
  simp only [sliceFinish] at h
  split at h
  · cases h
  · rename_i hbl0
    have hbl : 67 ≤ (scanLags ops 200 xw 132 67
          { best := f32Min, second := f32Min, bestLag := 0, sum := 0, cnt := 0 }).bestLag ∧
        (scanLags ops 200 xw 132 67
          { best := f32Min, second := f32Min, bestLag := 0, sum := 0, cnt := 0 }).bestLag ≤ 132 := by
      rcases scanLags_bestLag_range ops 200 xw 132 67 66 67
          { best := f32Min, second := f32Min, bestLag := 0, sum := 0, cnt := 0 }
          (by omega) (le_refl 67) (Or.inl rfl) with he | hgood
      · exact absurd he hbl0
      · exact hgood
    split at h
    · cases h
    · rename_i ca hca
      have hconf := scoreTail_conf_bounds ops hp _ _ _ _ _ _ _ _ _ _ hca (by split <;> simp)
      simp only [Option.some.injEq] at h
      subst h
      have hB := bpmRefine_bounds
        (scanLags ops 200 xw 132 67
          { best := f32Min, second := f32Min, bestLag := 0, sum := 0, cnt := 0 }).bestLag
        (corrAt ops xw ((scanLags ops 200 xw 132 67
          { best := f32Min, second := f32Min, bestLag := 0, sum := 0, cnt := 0 }).bestLag - 1))
        (corrAt ops xw (scanLags ops 200 xw 132 67
          { best := f32Min, second := f32Min, bestLag := 0, sum := 0, cnt := 0 }).bestLag)
        (corrAt ops xw ((scanLags ops 200 xw 132 67
          { best := f32Min, second := f32Min, bestLag := 0, sum := 0, cnt := 0 }).bestLag + 1))
        hbl.1 hbl.2
      exact ⟨(ioiFuse_bounds peaks.length _ _ hB.1 hB.2).1,
             (ioiFuse_bounds peaks.length _ _ hB.1 hB.2).2,
             hconf.1, hconf.2⟩

/-- Any slice estimate produced by `eval_slice` at the concrete parameters of
the estimator has BPM in [60, 200] and confidence in [0, 1]. -/
theorem evalSlice_bounds (ops : FloatOps) (hp : PowfBounded ops.powf) (xs : List ℚ)
    (out : SliceOut) (h : evalSlice ops 200 180 67 132 xs = some out) :
    60 ≤ out.bpm ∧ out.bpm ≤ 200 ∧ 0 ≤ out.conf ∧ out.conf ≤ 1 := by
  simp only [evalSlice, Option.bind_eq_some] at h
  obtain ⟨slice, _, pc, _, xw, _, hfin⟩ := h
  exact sliceFinish_bounds ops hp xw pc.1 pc.2 out hfin

/-- Rust's half-away-from-zero rounding of a non-negative rational, computed
through `Int.floor`. -/
theorem roundRust_nonneg_eq (q : ℚ) (n : ℤ) (h0 : 0 ≤ q) (h1 : (n : ℚ) ≤ q + 1/2)
    (h2 : q + 1/2 < n + 1) : roundRust q = n := by
  rw [roundRust, if_pos h0]
  exact Int.floor_eq_iff.mpr ⟨h1, h2⟩

/-- The input-jump reset leaves the estimator's tempo-range parameters
unchanged. -/
theorem inputJumpReset_params (ops : FloatOps) (s : EstState) (frames : List ℚ) :
    (inputJumpReset ops s frames).ds_rate = s.ds_rate ∧
    (inputJumpReset ops s frames).min_bpm = s.min_bpm ∧
    (inputJumpReset ops s frames).max_bpm = s.max_bpm := by
  simp only [inputJumpReset]
  (repeat' split) <;> exact ⟨rfl, rfl, rfl⟩

/-- Envelope preprocessing leaves the estimator's tempo-range parameters
unchanged. -/
theorem preprocessEnv_params (s : EstState) (decim : ℕ) (frames : List ℚ) :
    (preprocessEnv s decim frames).ds_rate = s.ds_rate ∧
    (preprocessEnv s decim frames).min_bpm = s.min_bpm ∧
    (preprocessEnv s decim frames).max_bpm = s.max_bpm :=
  ⟨rfl, rfl, rfl⟩

/-- Whenever the dual-window arbitration returns an estimate, its BPM and
confidence come from one of the two `eval_slice` results, so they satisfy the
slice bounds. -/
theorem estimateFrom_bounds (ops : FloatOps) (hp : PowfBounded ops.powf) (s : EstState)
    (rms : ℚ) (hds : s.ds_rate = 200) (hmin : s.min_bpm = 91) (hmax : s.max_bpm = 180) :
    ((estimateFrom ops s rms).2).elim True
      (fun est => 60 ≤ est.bpm ∧ est.bpm ≤ 200 ∧ 0 ≤ est.confidence ∧ est.confidence ≤ 1) := by
  have e67 : (roundRust ((200 : ℚ) * 60 / 180)).toNat = 67 := by
    rw [roundRust_nonneg_eq ((200 : ℚ) * 60 / 180) 67 (by norm_num) (by norm_num) (by norm_num)]
    rfl
  have e132 : (roundRust ((200 : ℚ) * 60 / 91)).toNat = 132 := by
    rw [roundRust_nonneg_eq ((200 : ℚ) * 60 / 91) 132 (by norm_num) (by norm_num) (by norm_num)]
    rfl
  simp only [estimateFrom, hds, hmin, hmax, e67, e132]
  split
  · rename_i l sh hL hS
    split at hS
    · have hlb := evalSlice_bounds ops hp _ l hL
      have hsb := evalSlice_bounds ops hp _ sh hS
      (repeat' split) <;> first | exact hsb | exact hlb
    · cases hS
  · rename_i l hL hS
    exact evalSlice_bounds ops hp _ l hL
  · rename_i sh hL hS
    split at hS
    · exact evalSlice_bounds ops hp _ sh hS
    · cases hS
  · exact trivial

/-- C8: every raw tempo estimate returned by `push_frames` (on an estimator
state carrying the constructor's tempo parameters, with the abstract `powf`
mapping [0, 1] into [0, 1] at exponent 0.85) has `bpm ∈ [60, 200]` and
`confidence ∈ [0, 1]`, for every input frame sequence, including after the
parabolic sub-sample refinement and the IOI-median fusion. -/
theorem C8_estimate_bounds (ops : FloatOps) (s : EstState) (frames : List ℚ)
    (hp : PowfBounded ops.powf) (hds : s.ds_rate = 200) (hmin : s.min_bpm = 91)
    (hmax : s.max_bpm = 180) :
    ((push_frames ops s frames).2).elim True
      (fun est => 60 ≤ est.bpm ∧ est.bpm ≤ 200 ∧ 0 ≤ est.confidence ∧ est.confidence ≤ 1) := by
  simp only [push_frames]
  split
  · exact trivial
  · split
    · exact trivial
    · split
      · exact trivial
      · exact estimateFrom_bounds ops hp _ _
          (by rw [(preprocessEnv_params _ _ _).1, (inputJumpReset_params _ _ _).1, hds])
          (by rw [(preprocessEnv_params _ _ _).2.1, (inputJumpReset_params _ _ _).2.1, hmin])
          (by rw [(preprocessEnv_params _ _ _).2.2, (inputJumpReset_params _ _ _).2.2, hmax])

/-- Witness for C8: the freshly constructed estimator state satisfies the
parameter hypotheses, the dummy operations satisfy the `powf` bound, and the
conclusion holds at the empty frame list. -/
theorem C8_estimate_bounds_witness :
    PowfBounded dummyOps.powf ∧ baseEst.ds_rate = 200 ∧ baseEst.min_bpm = 91 ∧
    baseEst.max_bpm = 180 ∧
    ((push_frames dummyOps baseEst []).2).elim True
      (fun est => 60 ≤ est.bpm ∧ est.bpm ≤ 200 ∧ 0 ≤ est.confidence ∧ est.confidence ≤ 1) :=
  ⟨dummyOps_powfBounded, rfl, rfl, rfl,
   C8_estimate_bounds dummyOps baseEst [] dummyOps_powfBounded rfl rfl rfl⟩

end BpmSniffer
